import Mathlib

/-!
# Cboot file manager (`tegrabl_file_manager.c`)

A shallow embedding of the boot-time file manager: the partition reader
`tegrabl_fm_read_partition`, the file loader `tegrabl_fm_read` with its
redundant-copy check of `/boot/Image`, the prefix lookup, `tegrabl_fm_publish`,
`tegrabl_fm_close`, and the properties claimed of them.

Conventions of the embedding.

* A C string is a `String`; `strlen` is `String.utf8ByteSize`.
* A byte is a `Nat`; every store to a `uint8_t` is written with `% 256`.
* A nullable pointer argument is an `Option`; `none` is `NULL`.
* The memory at `load_address` is a `List Nat`: the list is the part of the
  memory whose content is known, and a write of `k` bytes at offset 0 replaces
  the first `k` bytes (see `mem_write`).
* Collaborators that are not part of the file (filesystem driver, partition
  manager, checksum utility) are collected in `World`.
* Every call of a collaborator that a property speaks of is recorded in a
  trace of `Event`s.
-/

namespace Cboot

/-! ## Error codes -/

/-- Modelled from the spec: the reasons of the error surface of `tegrabl_error.h`
(absent from the sources): OutOfMemory, InvalidInput, Overflow, OpenFailed,
ReadFailed, and any other reason a collaborator may report. -/
inductive tegrabl_err_reason where
  | TEGRABL_ERR_NO_MEMORY
  | TEGRABL_ERR_INVALID
  | TEGRABL_ERR_OVERFLOW
  | TEGRABL_ERR_OPEN_FAILED
  | TEGRABL_ERR_READ_FAILED
  | TEGRABL_ERR_NOT_FOUND
  | other (code : Nat)
  deriving DecidableEq, Repr

/-- Modelled from the spec: the module tag carried by an error code; `MODULE` of
this file is `TEGRABL_ERR_FILE_MANAGER`. -/
inductive tegrabl_err_module where
  | TEGRABL_ERR_FILE_MANAGER
  | other (id : Nat)
  deriving DecidableEq, Repr

/-- Modelled from the spec: a non-zero composite module-tagged error code: the
reporting module, the reason and the auxiliary sub-reason number. -/
structure tegrabl_err_value where
  module : tegrabl_err_module
  reason : tegrabl_err_reason
  aux_info : Nat
  deriving DecidableEq, Repr

/-- The type `tegrabl_error_t`; `none` is `TEGRABL_NO_ERROR`. -/
abbrev tegrabl_error_t := Option tegrabl_err_value

/-- The success code. -/
def TEGRABL_NO_ERROR : tegrabl_error_t := none

/-- `TEGRABL_ERROR(reason, aux_info)` with `MODULE = TEGRABL_ERR_FILE_MANAGER`. -/
def TEGRABL_ERROR (reason : tegrabl_err_reason) (aux_info : Nat) : tegrabl_error_t :=
  some ⟨.TEGRABL_ERR_FILE_MANAGER, reason, aux_info⟩

/-- `TEGRABL_SET_HIGHEST_MODULE(err)`: the reporting module becomes this file's. -/
def TEGRABL_SET_HIGHEST_MODULE (err : tegrabl_err_value) : tegrabl_err_value :=
  { err with module := .TEGRABL_ERR_FILE_MANAGER }

/-! ## Collaborators -/

/-- The block device `tegrabl_bdev_t`, reduced to the field the file reads. -/
structure tegrabl_bdev_t where
  device_id : Nat
  deriving DecidableEq, Repr

/-- Modelled from the spec: the partition descriptor filled by a lookup (start
sector, size in bytes as `tegrabl_partition_size` reports it), with the bytes the
partition holds and the outcome `tegrabl_partition_read` has on it. -/
structure tegrabl_partition where
  start_sector : Nat
  size : Nat
  data : List Nat
  read_err : tegrabl_error_t
  deriving DecidableEq, Repr

/-- Modelled from the spec: a file of the mounted filesystem: its content, whether
`fs_stat_file` returns status 0 on it, and whether `fs_read_file` returns a
non-negative status on it. A failing read writes nothing. -/
structure fs_file where
  data : List Nat
  stat_ok : Bool
  read_ok : Bool
  deriving DecidableEq, Repr

/-- The collaborators of the file manager.
* `fs path` is the file `fs_open_file` finds at `path` (`none`: non-zero status).
* `partition_lookup name bdev` is `tegrabl_partition_lookup_bdev`.
* `oob off` is the byte found in the stack slot right after the array `out1[8]` at the
  time the byte at offset `off` of the image is repaired. -/
structure World where
  fs : String → Option fs_file
  partition_lookup : String → tegrabl_bdev_t → Except tegrabl_err_value tegrabl_partition
  oob : Nat → Nat

deriving instance DecidableEq for Except

/-- Calls of collaborators, in the order they are made. -/
inductive Event where
  | fs_open (path : String) (ok : Bool)
  | fs_close (fh : String)
  | read_partition_call
  | partition_read (name : String) (len : Nat)
  deriving DecidableEq, Repr

/-- A write of `bytes` at offset 0 of the memory `buf`. -/
def mem_write (buf bytes : List Nat) : List Nat :=
  bytes ++ buf.drop bytes.length

/-! ## `tegrabl_fm_read_partition` -/

/-- What a call of `tegrabl_fm_read_partition` leaves behind. -/
structure read_partition_result where
  err : tegrabl_error_t
  load_address : Option (List Nat)
  size : Option Nat
  trace : List Event
  deriving DecidableEq, Repr

/-- The function `tegrabl_fm_read_partition` (lines 167-225). `partition_size` is
a `uint32_t`, hence the `% 2 ^ 32`. -/
def tegrabl_fm_read_partition (w : World) (bdev : Option tegrabl_bdev_t)
    (partition_name : Option String) (load_address : Option (List Nat))
    (size : Option Nat) : read_partition_result :=
  match bdev, partition_name, load_address with
  | some bdev, some partition_name, some buf =>
    match w.partition_lookup partition_name bdev with
    | .error e =>
      ⟨some (TEGRABL_SET_HIGHEST_MODULE e), load_address, size, []⟩
    | .ok partition =>
      let partition_size := partition.size % 2 ^ 32
      if partition_size = 0 then
        ⟨TEGRABL_ERROR .TEGRABL_ERR_INVALID 0x4, load_address, size, []⟩
      else if (match size with | some c => decide (c < partition_size) | none => false) then
        ⟨TEGRABL_ERROR .TEGRABL_ERR_OVERFLOW 0x1, load_address, size, []⟩
      else
        match partition.read_err with
        | some e =>
          ⟨some (TEGRABL_SET_HIGHEST_MODULE e), load_address, size,
            [.partition_read partition_name partition_size]⟩
        | none =>
          ⟨TEGRABL_NO_ERROR, some (mem_write buf (partition.data.take partition_size)),
            size.map (fun _ => partition_size),
            [.partition_read partition_name partition_size]⟩
  | _, _, _ =>
    ⟨TEGRABL_ERROR .TEGRABL_ERR_INVALID 0x3, load_address, size, []⟩

/-! ## Checksum -/

/-- One bit step of the reflected CRC-32 register (polynomial 0xEDB88320). -/
def crc32_shift (c : Nat) : Nat :=
  if c % 2 = 1 then (c >>> 1) ^^^ 0xEDB88320 else c >>> 1

/-- The register after one more byte `b` of input. -/
def crc32_update (c b : Nat) : Nat :=
  crc32_shift^[8] (c ^^^ b)

/-- Modelled from the spec: the CRC32 utility `tegrabl_utils_crc32(val, buffer, size)`
(absent from the sources), "compute a 32-bit checksum over a buffer given a seed":
the standard CRC-32, with the seed complemented on entry and the register
complemented on exit. `buffer` is the `size` bytes the checksum runs over. -/
def tegrabl_utils_crc32 (val : Nat) (buffer : List Nat) : Nat :=
  (buffer.foldl crc32_update (val ^^^ 0xFFFFFFFF)) ^^^ 0xFFFFFFFF

/-! ## `tegrabl_fm_read` -/

/-- The record `struct tegrabl_fm_handle`. -/
structure tegrabl_fm_handle where
  bdev : Option tegrabl_bdev_t
  fs_type : Option String
  start_sector : Nat
  mount_path : Option String
  deriving DecidableEq, Repr

/-- The literal `IMAGE_COPY1_PATH`. -/
def IMAGE_COPY1_PATH : String := "/boot/copy1"

/-- The literal `IMAGE_COPY2_PATH`. -/
def IMAGE_COPY2_PATH : String := "/boot/copy2"

/-- Executions the C standard gives no meaning to, and the exhaustion of the
iteration budget of the window loop. -/
inductive Fault where
  | null_size
  | null_load_address
  | corrections_overflow
  | out_of_fuel
  deriving DecidableEq, Repr

/-- The locals of `tegrabl_fm_read` that outlive a step: `err`, the content of
`path[200]` (`none` while never written), the file handle `fh` (named by the path
it was opened on) and the trace of collaborator calls. -/
structure fm_locals where
  err : tegrabl_error_t
  path : Option String
  fh : Option String
  trace : List Event
  deriving DecidableEq, Repr

/-- What a call of `tegrabl_fm_read` leaves behind: the returned error, the memory
at `load_address`, `*size`, `*is_file_loaded_from_fs`, the process-wide
`fm_handle`, the content of `path[200]` and the trace. -/
structure fm_read_result where
  err : tegrabl_error_t
  load_address : Option (List Nat)
  size : Option Nat
  is_file_loaded_from_fs : Option Bool
  fm_handle : Option tegrabl_fm_handle
  path : Option String
  trace : List Event
  deriving DecidableEq, Repr

/-- Modelled from the spec: the call `fs_read_file(fh, buf, 0, len)` of the
filesystem layer: at most `len` bytes of the file go to offset 0 of `buf`; the
status is the number of bytes read, or negative on failure. -/
def fs_read_file (w : World) (fh : Option String) (buf : List Nat) (len : Nat) :
    Int × List Nat :=
  match fh with
  | none => (-1, buf)
  | some p =>
    match w.fs p with
    | none => (-1, buf)
    | some f =>
      if f.read_ok then (((f.data.take len).length : Int), mem_write buf (f.data.take len))
      else (-1, buf)

/-- Modelled from the spec: the call `fs_stat_file(fh, &stat)`: status 0 and the size
of the file, or a non-zero status. -/
def fs_stat_file (w : World) (fh : Option String) : Option Nat :=
  match fh with
  | none => none
  | some p =>
    match w.fs p with
    | none => none
    | some f => if f.stat_ok then some f.data.length else none

/-- Where one load block of `tegrabl_fm_read` ends. -/
inductive fs_load_result where
  | loaded (st : fm_locals) (buf : List Nat) (stat_size : Nat)
  | load_from_partition (st : fm_locals) (buf : Option (List Nat))
  | fault (f : Fault)
  deriving DecidableEq, Repr

/-- The load block written out four times in `tegrabl_fm_read` (lines 274-305,
316-344, 348-376, 422-450): build `path`, open it, stat it, compare `*size` with
`stat.size`, read `stat.size` bytes to `load_address`. Every failure sets `err`
and jumps to `load_from_partition`. A failing `fs_open_file` leaves `fh` as it was.
`stat.size <= *size` holds wherever `stat.size` is stored to the `uint32_t` `*size`,
so that store does not truncate. -/
def fs_load (w : World) (full_path : String) (load_address : Option (List Nat))
    (size : Option Nat) (st : fm_locals) : fs_load_result :=
  let st := { st with path := some full_path }
  match w.fs full_path with
  | none =>
    .load_from_partition
      { st with err := TEGRABL_ERROR .TEGRABL_ERR_OPEN_FAILED 0x0,
                trace := st.trace ++ [.fs_open full_path false] } load_address
  | some _ =>
    let st := { st with fh := some full_path, trace := st.trace ++ [.fs_open full_path true] }
    match fs_stat_file w st.fh with
    | none =>
      .load_from_partition { st with err := TEGRABL_ERROR .TEGRABL_ERR_OPEN_FAILED 0x1 }
        load_address
    | some stat_size =>
      match size with
      | none => .fault .null_size
      | some cap =>
        if cap < stat_size then
          .load_from_partition { st with err := TEGRABL_ERROR .TEGRABL_ERR_OVERFLOW 0x0 }
            load_address
        else
          match load_address with
          | none => .fault .null_load_address
          | some buf =>
            let r := fs_read_file w st.fh buf stat_size
            if r.1 < 0 then
              .load_from_partition { st with err := TEGRABL_ERROR .TEGRABL_ERR_READ_FAILED 0x1 }
                load_address
            else .loaded st r.2 stat_size

/-- The label `fail:` of `tegrabl_fm_read`: close `fh` when it is not `NULL`, return. -/
def fm_exit (st : fm_locals) (load_address : Option (List Nat)) (size : Option Nat)
    (is_file_loaded_from_fs : Option Bool) (fm_handle : Option tegrabl_fm_handle) :
    fm_read_result :=
  { err := st.err, load_address := load_address, size := size,
    is_file_loaded_from_fs := is_file_loaded_from_fs, fm_handle := fm_handle,
    path := st.path,
    trace := match st.fh with
      | some fh => st.trace ++ [.fs_close fh]
      | none => st.trace }

/-- The label `load_from_partition:` (lines 599-618). -/
def load_from_partition (w : World) (fm_handle : Option tegrabl_fm_handle)
    (handle : tegrabl_fm_handle) (partition_name : Option String)
    (load_address : Option (List Nat)) (size : Option Nat)
    (is_file_loaded_from_fs : Option Bool) (st : fm_locals) : fm_read_result :=
  match partition_name with
  | none => fm_exit st load_address size is_file_loaded_from_fs fm_handle
  | some name =>
    let r := tegrabl_fm_read_partition w handle.bdev (some name) load_address size
    fm_exit { st with err := r.err, trace := st.trace ++ [.read_partition_call] ++ r.trace }
      r.load_address r.size is_file_loaded_from_fs fm_handle

/-- Lines 589-597: store `stat.size` to `*size`, set the flag, save the handle. -/
def fm_loaded (handle : tegrabl_fm_handle) (is_file_loaded_from_fs : Option Bool)
    (st : fm_locals) (buf : List Nat) (stat_size : Nat) : fm_read_result :=
  fm_exit st (some buf) (some stat_size) (is_file_loaded_from_fs.map (fun _ => true))
    (some handle)

/-! ### Bit-level repair (lines 455-586) -/

/-- The loop `for (j = 0; j < 8; j++) { out[j] = (x & mask) ? 1 : 0; x <<= 1; }` with
`mask = 1U << 7` and `x` a `uint8_t`; the first argument counts the iterations left. -/
def unpack_bits : Nat → Nat → List Nat
  | 0, _ => []
  | k + 1, x => (if x &&& 128 ≠ 0 then 1 else 0) :: unpack_bits k (x * 2 % 256)

/-- The loop `if (out2[j]==out3[j] && out1[j]!=out2[j]) out1[j]=out2[j];` over `j`. -/
def vote_bits : List Nat → List Nat → List Nat → List Nat
  | o1 :: r1, o2 :: r2, o3 :: r3 =>
    (if o2 = o3 ∧ o1 ≠ o2 then o2 else o1) :: vote_bits r1 r2 r3
  | _, _, _ => []

/-- The value of `s` after `uint8_t s=1; for(int k=1;k<8-j;++k) s *= 2;`. -/
def bit_weight (j : Nat) : Nat :=
  (fun s => s * 2 % 256)^[(8 - j) - 1] 1

/-- The loop `t=0; for (int j = 8; j > 0; --j) if (out1[j] == 1) t += s;` of lines
555-563. The array `out1` has the indices 0..7; index 8 is the stack slot after it,
whose content is `oob`. -/
def pack_bits (out1 : List Nat) (oob : Nat) : Nat :=
  [8, 7, 6, 5, 4, 3, 2, 1].foldl
    (fun t j => if (out1 ++ [oob]).getD j 0 = 1 then (t + bit_weight j) % 256 else t) 0

/-- The byte `t` stored to `b[size1]` at line 566 for the primary byte `t`, the
copy1 byte `p2` and the copy2 byte `p3` (lines 536-563). -/
def corrected_byte (oob t p2 p3 : Nat) : Nat :=
  pack_bits (vote_bits (unpack_bits 8 t) (unpack_bits 8 p2) (unpack_bits 8 p3)) oob

/-- The stores `a[size1] = off; b[size1++] = v;` into arrays of `cap` entries. -/
def record_correction (cap : Nat) (corr : List (Nat × Nat)) (off v : Nat) :
    Except Fault (List (Nat × Nat)) :=
  if corr.length < cap then .ok (corr ++ [(off, v)]) else .error .corrections_overflow

/-- The body of the comparison loop (lines 528-568) at index `i` of a window. -/
def compare_byte (oob cap : Nat) (buf temp_buf2 temp_buf3 : List Nat) (start i : Nat)
    (corr : List (Nat × Nat)) : Except Fault (List (Nat × Nat)) :=
  let t := buf.getD (start + i) 0
  let p2 := temp_buf2.getD i 0
  let p3 := temp_buf3.getD i 0
  if t ≠ p2 ∧ p2 = p3 then
    record_correction cap corr (start + i) p2
  else if t ≠ p2 ∧ p2 ≠ p3 ∧ t ≠ p3 then
    record_correction cap corr (start + i) (corrected_byte oob t p2 p3)
  else .ok corr

/-- The number of iterations of `for(i=0;i<W&&(start+i)<stat_size;++i)`. -/
def window_len (W stat_size start : Nat) : Nat :=
  min W (stat_size - start)

/-- The copy loop `temp_buf[i]=*(uint8_t*)(load_address+start+i);` over a window. -/
def copy_window (buf : List Nat) (start m : Nat) : List Nat :=
  (List.range m).map (fun i => buf.getD (start + i) 0)

/-- The comparison loop of lines 527-569 over a window of `m` bytes. -/
def compare_window (oob : Nat → Nat) (cap : Nat) (buf temp_buf2 temp_buf3 : List Nat)
    (start m : Nat) (corr : List (Nat × Nat)) : Except Fault (List (Nat × Nat)) :=
  (List.range m).foldlM
    (fun c i => compare_byte (oob (start + i)) cap buf temp_buf2 temp_buf3 start i c) corr

/-- A reload inside the window loop (lines 477-489, 495-507, 513-525): build `path`,
open it, read `stat_size` bytes through `fh`; failures are only logged. -/
def fs_reload (w : World) (full_path : String) (stat_size : Nat) (st : fm_locals)
    (buf : List Nat) : fm_locals × List Nat :=
  let st := { st with path := some full_path }
  let st := match w.fs full_path with
    | none => { st with trace := st.trace ++ [.fs_open full_path false] }
    | some _ => { st with fh := some full_path, trace := st.trace ++ [.fs_open full_path true] }
  (st, (fs_read_file w st.fh buf stat_size).2)

/-- The loop `while(start < stat.size)` of lines 476-579, with windows of `W` bytes
and correction arrays of `cap` entries; `fuel` bounds the number of iterations. -/
def scan_windows (w : World) (W cap : Nat) (mount_path file_path : String)
    (stat_size : Nat) : Nat → Nat → fm_locals → List Nat → List (Nat × Nat) →
    Except Fault (fm_locals × List Nat × List (Nat × Nat))
  | fuel, start, st, buf, corr =>
    if start < stat_size then
      match fuel with
      | 0 => .error .out_of_fuel
      | fuel + 1 =>
        let m := window_len W stat_size start
        let r2 := fs_reload w (mount_path ++ IMAGE_COPY1_PATH) stat_size st buf
        let temp_buf2 := copy_window r2.2 start m
        let r3 := fs_reload w (mount_path ++ IMAGE_COPY2_PATH) stat_size r2.1 r2.2
        let temp_buf3 := copy_window r3.2 start m
        let r1 := fs_reload w (mount_path ++ file_path) stat_size r3.1 r3.2
        match compare_window w.oob cap r1.2 temp_buf2 temp_buf3 start m corr with
        | .error f => .error f
        | .ok corr =>
          let start := if start + W > stat_size then stat_size else start + W
          scan_windows w W cap mount_path file_path stat_size fuel start r1.1 r1.2 corr
    else .ok (st, buf, corr)

/-- The loop `for(i=0;i<size1;++i) memcpy(load_address+a[i], b+i, 1);` of lines 580-582. -/
def apply_corrections (buf : List Nat) (corr : List (Nat × Nat)) : List Nat :=
  corr.foldl (fun b c => b.set c.1 c.2) buf

/-- The branch of lines 455-586 with windows of `W` bytes and `cap` correction
entries. The scratch allocations are taken to succeed. -/
def bit_repair (w : World) (W cap : Nat) (mount_path file_path : String)
    (stat_size : Nat) (st : fm_locals) (buf : List Nat) :
    Except Fault (fm_locals × List Nat) :=
  match scan_windows w W cap mount_path file_path stat_size stat_size 0 st buf [] with
  | .error f => .error f
  | .ok (st, buf, corr) => .ok (st, apply_corrections buf corr)

/-- The special case of lines 308-587 for `file_path` equal to `/boot/Image`, entered
with the primary image loaded (`stat_size` bytes in `buf`). -/
def verify_image (w : World) (fm_handle : Option tegrabl_fm_handle)
    (handle : tegrabl_fm_handle) (mount_path file_path : String)
    (partition_name : Option String) (size : Option Nat)
    (is_file_loaded_from_fs : Option Bool) (st : fm_locals) (buf : List Nat)
    (stat_size : Nat) : Except Fault fm_read_result :=
  let a := tegrabl_utils_crc32 0 (buf.take stat_size)
  match fs_load w (mount_path ++ IMAGE_COPY1_PATH) (some buf) size st with
  | .fault f => .error f
  | .load_from_partition st buf =>
    .ok (load_from_partition w fm_handle handle partition_name buf size
      is_file_loaded_from_fs st)
  | .loaded st buf stat_size =>
    let b := tegrabl_utils_crc32 0 (buf.take stat_size)
    match fs_load w (mount_path ++ IMAGE_COPY2_PATH) (some buf) size st with
    | .fault f => .error f
    | .load_from_partition st buf =>
      .ok (load_from_partition w fm_handle handle partition_name buf size
        is_file_loaded_from_fs st)
    | .loaded st buf stat_size =>
      let c := tegrabl_utils_crc32 0 (buf.take stat_size)
      if a = b ∨ a = c then
        match fs_load w (mount_path ++ file_path) (some buf) size st with
        | .fault f => .error f
        | .load_from_partition st buf =>
          .ok (load_from_partition w fm_handle handle partition_name buf size
            is_file_loaded_from_fs st)
        | .loaded st buf stat_size =>
          .ok (fm_loaded handle is_file_loaded_from_fs st buf stat_size)
      else if a ≠ b ∧ a ≠ c ∧ b = c then
        .ok (fm_loaded handle is_file_loaded_from_fs st buf stat_size)
      else if a ≠ b ∧ a ≠ c ∧ b ≠ c then
        match bit_repair w 2000000 1000000 mount_path file_path stat_size st buf with
        | .error f => .error f
        | .ok (st, buf) => .ok (fm_loaded handle is_file_loaded_from_fs st buf stat_size)
      else
        .ok (fm_loaded handle is_file_loaded_from_fs st buf stat_size)

/-- The function `tegrabl_fm_read` (lines 239-618). `fm_handle` is the process-wide
handle at entry. -/
def tegrabl_fm_read (w : World) (fm_handle : Option tegrabl_fm_handle)
    (handle : Option tegrabl_fm_handle) (file_path partition_name : Option String)
    (load_address : Option (List Nat)) (size : Option Nat)
    (is_file_loaded_from_fs : Option Bool) : Except Fault fm_read_result :=
  let flag := is_file_loaded_from_fs.map (fun _ => false)
  let st : fm_locals := { err := TEGRABL_NO_ERROR, path := none, fh := none, trace := [] }
  match handle with
  | none =>
    .ok (fm_exit { st with err := TEGRABL_ERROR .TEGRABL_ERR_INVALID 0x3 } load_address size
      flag fm_handle)
  | some h =>
    match file_path, h.mount_path with
    | some fp, some mp =>
      if mp.utf8ByteSize + fp.utf8ByteSize ≥ 200 then
        .ok (load_from_partition w fm_handle h partition_name load_address size flag
          { st with err := TEGRABL_ERROR .TEGRABL_ERR_OVERFLOW 0x2 })
      else
        match fs_load w (mp ++ fp) load_address size st with
        | .fault f => .error f
        | .load_from_partition st buf =>
          .ok (load_from_partition w fm_handle h partition_name buf size flag st)
        | .loaded st buf stat_size =>
          if fp = "/boot/Image" then
            verify_image w fm_handle h mp fp partition_name size flag st buf stat_size
          else
            .ok (fm_loaded h flag st buf stat_size)
    | _, _ =>
      .ok (load_from_partition w fm_handle h partition_name load_address size flag st)

/-! ## ` get_prefix`, `tegrabl_fm_publish`, `tegrabl_fm_close` -/

/-- The enumerators of `tegrabl_blockdev.h` (absent from the sources) that the switch of
` get_prefix` has as case labels. The case labels of one switch are distinct constants. -/
structure storage_types where
  TEGRABL_STORAGE_USB_MS : Nat
  TEGRABL_STORAGE_SDCARD : Nat
  TEGRABL_STORAGE_SDMMC_USER : Nat
  TEGRABL_STORAGE_SDMMC_BOOT : Nat
  distinct : [TEGRABL_STORAGE_USB_MS, TEGRABL_STORAGE_SDCARD, TEGRABL_STORAGE_SDMMC_USER,
    TEGRABL_STORAGE_SDMMC_BOOT].Nodup

/-- Modelled from the spec: the macro `BITFIELD_GET(val, 16, 16)` of `tegrabl_utils.h`
(absent from the sources), "extract via mask + right-shift by 16, width 16 bits". -/
def BITFIELD_GET (val width shift : Nat) : Nat :=
  (val >>> shift) &&& (2 ^ width - 1)

/-- The function ` get_prefix` (lines 39-63). -/
def get_prefix (k : storage_types) (device_id : Nat) : Option String :=
  let bdev_id := BITFIELD_GET device_id 16 16
  if bdev_id = k.TEGRABL_STORAGE_USB_MS then some "/usb"
  else if bdev_id = k.TEGRABL_STORAGE_SDCARD then some "/sd"
  else if bdev_id = k.TEGRABL_STORAGE_SDMMC_USER then some "/sdmmc_user"
  else if bdev_id = k.TEGRABL_STORAGE_SDMMC_BOOT then some "/sdmmc_boot"
  else none

/-- The function `tegrabl_file_manager_get_handle` (lines 70-73), on the process-wide
handle `fm_handle`. -/
def tegrabl_file_manager_get_handle (fm_handle : Option tegrabl_fm_handle) :
    Option tegrabl_fm_handle :=
  fm_handle

/-- The collaborators of `tegrabl_fm_publish`.
* `malloc_ok`: `tegrabl_malloc` returns a block.
* `tegrabl_partition_publish bdev` is the error of `tegrabl_partition_publish(bdev, 0)`.
* `boot_guid_lookup bdev` is `tegrabl_partition_boot_guid_lookup_bdev` with the GUID of
  `tegrabl_get_boot_pt_guid()`.
* `fs_detect bdev sector` is the filesystem type found (`none`: `NULL`).
* `fs_mount pfx fs_type bdev sector` is the status of the mount. -/
structure PublishWorld where
  types : storage_types
  malloc_ok : Bool
  tegrabl_partition_publish : tegrabl_bdev_t → tegrabl_error_t
  boot_guid_lookup : tegrabl_bdev_t → Except tegrabl_err_value tegrabl_partition
  fs_detect : tegrabl_bdev_t → Nat → Option String
  fs_mount : String → String → tegrabl_bdev_t → Nat → Int

/-- Calls of collaborators made by `tegrabl_fm_publish`, in order. -/
inductive publish_event where
  | partition_publish
  | boot_guid_lookup
  | fs_detect (sector : Nat)
  | fs_mount (pfx fs_type : String) (sector : Nat)
  deriving DecidableEq, Repr

/-- What a call of `tegrabl_fm_publish` leaves behind: the returned error, the
process-wide `fm_handle`, the output parameter `*handle` (`none` when the pointer is
`NULL`) and the trace. -/
structure publish_result where
  err : tegrabl_error_t
  fm_handle : Option tegrabl_fm_handle
  handle : Option (Option tegrabl_fm_handle)
  trace : List publish_event
  deriving DecidableEq, Repr

/-- The label `fail:` of `tegrabl_fm_publish` (lines 160-164). -/
def publish_exit (err : tegrabl_error_t) (fm_handle : Option tegrabl_fm_handle)
    (handle : Option (Option tegrabl_fm_handle)) (trace : List publish_event) :
    publish_result :=
  { err := err, fm_handle := fm_handle, handle := handle.map (fun _ => fm_handle),
    trace := trace }

/-- The label `detect_fs:` of `tegrabl_fm_publish` (lines 129-157), entered with the
value `err` has at the jump, the zeroed handle `hd` and `detect_fs_sector`. -/
def detect_fs (pw : PublishWorld) (bdev : tegrabl_bdev_t) (err : tegrabl_error_t)
    (hd : tegrabl_fm_handle) (handle : Option (Option tegrabl_fm_handle))
    (trace : List publish_event) (detect_fs_sector : Nat) : publish_result :=
  let trace := trace ++ [.fs_detect detect_fs_sector]
  match pw.fs_detect bdev detect_fs_sector with
  | none => publish_exit (TEGRABL_ERROR .TEGRABL_ERR_INVALID 0x0) (some hd) handle trace
  | some fs_type =>
    match get_prefix pw.types bdev.device_id with
    | none => publish_exit (TEGRABL_ERROR .TEGRABL_ERR_INVALID 0x1) (some hd) handle trace
    | some pfx =>
      let trace := trace ++ [.fs_mount pfx fs_type detect_fs_sector]
      if pw.fs_mount pfx fs_type bdev detect_fs_sector ≠ 0 then
        publish_exit (TEGRABL_ERROR .TEGRABL_ERR_INVALID 0x2) (some hd) handle trace
      else
        publish_exit err
          (some { hd with fs_type := some fs_type, start_sector := detect_fs_sector,
                          mount_path := some pfx })
          handle trace

/-- The function `tegrabl_fm_publish` (lines 83-165); `extlinux` tells whether
`CONFIG_ENABLE_EXTLINUX_BOOT` is defined, `handle` is the output parameter.
`detect_fs_sector` is a `uint32_t`, hence the `% 2 ^ 32`. -/
def tegrabl_fm_publish (extlinux : Bool) (pw : PublishWorld) (bdev : tegrabl_bdev_t)
    (handle : Option (Option tegrabl_fm_handle)) : publish_result :=
  if !pw.malloc_ok then
    publish_exit (TEGRABL_ERROR .TEGRABL_ERR_NO_MEMORY 0x0) none handle []
  else
    let hd : tegrabl_fm_handle :=
      { bdev := some bdev, fs_type := none, start_sector := 0, mount_path := none }
    let err := pw.tegrabl_partition_publish bdev
    let trace := [publish_event.partition_publish]
    if err ≠ TEGRABL_NO_ERROR then
      if extlinux then detect_fs pw bdev err hd handle trace 0x0
      else publish_exit err (some hd) handle trace
    else if extlinux then
      let trace := trace ++ [.boot_guid_lookup]
      match pw.boot_guid_lookup bdev with
      | .error e => publish_exit (some e) (some hd) handle trace
      | .ok boot_partition =>
        detect_fs pw bdev TEGRABL_NO_ERROR hd handle trace (boot_partition.start_sector % 2 ^ 32)
    else publish_exit err (some hd) handle trace

/-- Calls made by `tegrabl_fm_close`, in order. -/
inductive close_event where
  | fs_unmount (path : String)
  | tegrabl_free (handle : tegrabl_fm_handle)
  deriving DecidableEq, Repr

/-- What a call of `tegrabl_fm_close` leaves behind: the process-wide `fm_handle` and
the trace. -/
structure close_result where
  fm_handle : Option tegrabl_fm_handle
  trace : List close_event
  deriving DecidableEq, Repr

/-- The function `tegrabl_fm_close` (lines 625-640); `fm_handle` is the process-wide
handle at entry. -/
def tegrabl_fm_close (fm_handle : Option tegrabl_fm_handle)
    (handle : Option tegrabl_fm_handle) : close_result :=
  match handle with
  | none => { fm_handle := fm_handle, trace := [] }
  | some h =>
    { fm_handle := none,
      trace := (match h.mount_path with
        | some p => [.fs_unmount p]
        | none => []) ++ [.tegrabl_free h] }

/-! ## The repair as one pass over the offsets -/

/-- A filesystem given by a table of paths and files. -/
def fs_of_table (l : List (String × fs_file)) : String → Option fs_file :=
  fun p => l.lookup p

/-- A partition table with the single entry `name`. -/
def single_partition (name : String) (p : tegrabl_partition) :
    String → tegrabl_bdev_t → Except tegrabl_err_value tegrabl_partition :=
  fun n _ => if n = name then .ok p else .error ⟨.other 7, .TEGRABL_ERR_NOT_FOUND, 0⟩

/-- A readable partition of four bytes. -/
def kernel_partition : tegrabl_partition :=
  { start_sector := 64, size := 4, data := [9, 8, 7, 6], read_err := none }

/-- A world without files whose only partition is `kernel`. -/
def world_partition_only : World :=
  ⟨fs_of_table [], single_partition "kernel" kernel_partition, fun _ => 0⟩

/-- The file at `path` opens, stats and reads with success, holds the bytes `data`
and fits in the capacity `cap`. -/
def loads_ok (w : World) (path : String) (cap : Nat) (data : List Nat) : Prop :=
  w.fs path = some ⟨data, true, true⟩ ∧ data.length ≤ cap

instance (w : World) (path : String) (cap : Nat) (data : List Nat) :
    Decidable (loads_ok w path cap data) := by
  unfold loads_ok
  infer_instance

/-- A readable file with the content `data`. -/
def plain_file (data : List Nat) : fs_file := ⟨data, true, true⟩

/-- A handle on a filesystem mounted at `/sd`. -/
def sd_handle : tegrabl_fm_handle :=
  { bdev := some ⟨0⟩, fs_type := some "ext4", start_sector := 0, mount_path := some "/sd" }

/-- A world in which copy1 equals the primary image and copy2 differs from it. -/
def world_intact : World :=
  ⟨fs_of_table [("/sd/boot/Image", plain_file [1, 2, 3]), ("/sd/boot/copy1", plain_file [1, 2, 3]),
      ("/sd/boot/copy2", plain_file [1, 2, 4])],
    single_partition "kernel" kernel_partition, fun _ => 0⟩

/-- A world in which the two copies agree and are shorter than the primary image. -/
def world_backups_agree : World :=
  ⟨fs_of_table [("/sd/boot/Image", plain_file [1, 2]), ("/sd/boot/copy1", plain_file [3]),
      ("/sd/boot/copy2", plain_file [3])],
    single_partition "kernel" kernel_partition, fun _ => 0⟩

/-- A world in which the two copies hold 7 at offset 1 where the primary holds 2. -/
def world_one_offset : World :=
  ⟨fs_of_table [("/sd/boot/Image", plain_file [1, 2, 3]), ("/sd/boot/copy1", plain_file [1, 7, 3]),
      ("/sd/boot/copy2", plain_file [1, 7, 3])],
    single_partition "kernel" kernel_partition, fun _ => 0⟩

/-- A step of the load block fails on `path`: the file is absent, or its stat
fails, or it is larger than the capacity `cap`, or its read fails. -/
def load_fails (w : World) (path : String) (cap : Nat) : Prop :=
  match w.fs path with
  | none => True
  | some f => f.stat_ok = false ∨ cap < f.data.length ∨ f.read_ok = false

instance (w : World) (path : String) (cap : Nat) : Decidable (load_fails w path cap) := by
  unfold load_fails
  split <;> infer_instance

/-- A world with the primary image and copy2 but without copy1. -/
def world_copy1_missing : World :=
  ⟨fs_of_table [("/sd/boot/Image", plain_file [1, 2, 3]), ("/sd/boot/copy2", plain_file [1, 2, 3])],
    single_partition "kernel" kernel_partition, fun _ => 0⟩

/-- A file path of 197 bytes; behind the mount prefix `/sd` it makes 200. -/
def long_file_path : String := String.mk (List.replicate 197 'a')

/-- A world whose three images differ pairwise in their first byte (0x80, 0x81, 0x82);
the stack slot after `out1` always holds 0. -/
def world_three_way : World :=
  ⟨fs_of_table [("/sd/boot/Image", plain_file [0x80, 2]), ("/sd/boot/copy1", plain_file [0x81, 2]),
      ("/sd/boot/copy2", plain_file [0x82, 2])],
    single_partition "kernel" kernel_partition, fun _ => 0⟩

/-- Sample values of the storage enumerators. -/
def sample_storage_types : storage_types :=
  ⟨5, 6, 1, 0, by decide⟩

/-- An SD card: storage category 6 in the bits 16-31 of the identifier, instance 2 below. -/
def sd_bdev : tegrabl_bdev_t := ⟨0x60002⟩

/-- A device with a partition table whose boot partition starts at sector 2048 and
holds an ext4 filesystem. -/
def publish_world_gpt : PublishWorld :=
  ⟨sample_storage_types, true, fun _ => TEGRABL_NO_ERROR,
    fun _ => .ok { start_sector := 2048, size := 4096, data := [], read_err := none },
    fun _ sector => if sector = 2048 then some "ext4" else none,
    fun _ _ _ _ => 0⟩

/-- A device without a partition table that holds a FAT filesystem at sector 0. -/
def publish_world_raw : PublishWorld :=
  ⟨sample_storage_types, true, fun _ => some ⟨.other 9, .TEGRABL_ERR_NOT_FOUND, 0⟩,
    fun _ => .error ⟨.other 9, .TEGRABL_ERR_NOT_FOUND, 1⟩,
    fun _ sector => if sector = 0 then some "fat" else none,
    fun _ _ _ _ => 0⟩

/-- A handle on a device without a mounted filesystem. -/
def bare_handle : tegrabl_fm_handle :=
  { bdev := some ⟨0⟩, fs_type := none, start_sector := 0, mount_path := none }

/-- The file handles left open by a trace, from none open: a successful `fs_open_file`
adds the handle it returns, `fs_close_file` removes the handle it is given. -/
def open_handles (trace : List Event) : List String :=
  trace.foldl
    (fun acc e =>
      match e with
      | .fs_open p true => acc ++ [p]
      | .fs_close p => acc.erase p
      | _ => acc) []

/-- The locals are those of a run that has stayed on the filesystem path: no error is
recorded and the partition reader has not been called. -/
def on_fs_path (st : fm_locals) : Prop :=
  st.err = TEGRABL_NO_ERROR ∧ Event.read_partition_call ∉ st.trace

/-- The result of the call of `tegrabl_fm_read` on `/boot/Image` in `world_intact`. -/
def intact_result : fm_read_result :=
  { err := TEGRABL_NO_ERROR, load_address := some [1, 2, 3, 0], size := some 3,
    is_file_loaded_from_fs := some true, fm_handle := some sd_handle,
    path := some "/sd/boot/Image",
    trace := [.fs_open "/sd/boot/Image" true, .fs_open "/sd/boot/copy1" true,
      .fs_open "/sd/boot/copy2" true, .fs_open "/sd/boot/Image" true,
      .fs_close "/sd/boot/Image"] }

/-- C8: a call of `tegrabl_fm_read_partition` with present device, name and
destination, a successful lookup of a partition of non-zero size `s` and a supplied
capacity `c < s` returns the Overflow error, leaves the capacity output at `c`,
leaves the destination as it was and issues no partition read. -/
theorem read_partition_overflow (w : World) (bdev : tegrabl_bdev_t) (name : String)
    (buf : List Nat) (p : tegrabl_partition) (c : Nat)
    (hl : w.partition_lookup name bdev = .ok p) (hs : p.size % 2 ^ 32 ≠ 0)
    (hc : c < p.size % 2 ^ 32) :
    tegrabl_fm_read_partition w (some bdev) (some name) (some buf) (some c) =
      { err := TEGRABL_ERROR .TEGRABL_ERR_OVERFLOW 0x1, load_address := some buf,
        size := some c, trace := [] } := by
  have hs' := hs
  have hc' := hc
  norm_num at hs' hc'
  simp [tegrabl_fm_read_partition, hl, hs', hc']

/-- The statement C8 at the partition `kernel` of four bytes and capacity 3. -/
theorem read_partition_overflow_witness :
    tegrabl_fm_read_partition world_partition_only (some ⟨0⟩) (some "kernel") (some [1, 2, 3])
        (some 3) =
      { err := TEGRABL_ERROR .TEGRABL_ERR_OVERFLOW 0x1, load_address := some [1, 2, 3],
        size := some 3, trace := [] } :=
  read_partition_overflow world_partition_only ⟨0⟩ "kernel" [1, 2, 3] kernel_partition 3
    (by decide) (by decide) (by decide)

/-- C9: a call of `tegrabl_fm_read_partition` with present arguments, a successful
lookup of a partition of non-zero size `s`, a supplied capacity `c ≥ s` and a
successful partition read returns no error, sets the capacity output to exactly `s`
and issues one read, of exactly `s` bytes; and every call, whatever its arguments,
that returns an error leaves the capacity output as it was. -/
theorem read_partition_success (w : World) (bdev : tegrabl_bdev_t) (name : String)
    (buf : List Nat) (p : tegrabl_partition) (c : Nat)
    (hl : w.partition_lookup name bdev = .ok p) (hs : p.size % 2 ^ 32 ≠ 0)
    (hc : p.size % 2 ^ 32 ≤ c) (hr : p.read_err = none) :
    (tegrabl_fm_read_partition w (some bdev) (some name) (some buf) (some c)).err
        = TEGRABL_NO_ERROR ∧
    (tegrabl_fm_read_partition w (some bdev) (some name) (some buf) (some c)).size
        = some (p.size % 2 ^ 32) ∧
    (tegrabl_fm_read_partition w (some bdev) (some name) (some buf) (some c)).trace
        = [.partition_read name (p.size % 2 ^ 32)] ∧
    ∀ (bdev' : Option tegrabl_bdev_t) (name' : Option String) (buf' : Option (List Nat))
      (size' : Option Nat),
      (tegrabl_fm_read_partition w bdev' name' buf' size').err ≠ TEGRABL_NO_ERROR →
      (tegrabl_fm_read_partition w bdev' name' buf' size').size = size' := by
  have hs' := hs
  have hc' := Nat.not_lt.mpr hc
  norm_num at hs' hc'
  refine ⟨?_, ?_, ?_, ?_⟩
  · simp [tegrabl_fm_read_partition, hl, hs', Nat.not_lt.mpr hc', hr]
  · simp [tegrabl_fm_read_partition, hl, hs', Nat.not_lt.mpr hc', hr]
  · simp [tegrabl_fm_read_partition, hl, hs', Nat.not_lt.mpr hc', hr]
  · intro bdev' name' buf' size'
    unfold tegrabl_fm_read_partition
    split
    · split
      · simp
      · dsimp only
        split_ifs
        · simp
        · simp
        · split <;> simp [TEGRABL_NO_ERROR]
    · simp

/-- The statement C9 at the partition `kernel` of four bytes and capacity 6. -/
theorem read_partition_success_witness :
    (tegrabl_fm_read_partition world_partition_only (some ⟨0⟩) (some "kernel")
        (some [1, 2, 3, 4, 5, 6]) (some 6)).err = TEGRABL_NO_ERROR ∧
    (tegrabl_fm_read_partition world_partition_only (some ⟨0⟩) (some "kernel")
        (some [1, 2, 3, 4, 5, 6]) (some 6)).size = some 4 :=
  ⟨(read_partition_success world_partition_only ⟨0⟩ "kernel" [1, 2, 3, 4, 5, 6]
      kernel_partition 6 (by decide) (by decide) (by decide) (by decide)).1,
   (read_partition_success world_partition_only ⟨0⟩ "kernel" [1, 2, 3, 4, 5, 6]
      kernel_partition 6 (by decide) (by decide) (by decide) (by decide)).2.1⟩

/-! ## Properties of `tegrabl_fm_read` -/

theorem take_mem_write (buf data : List Nat) :
    (mem_write buf data).take data.length = data := by
  simp [mem_write]

/-- A load block on a file that opens, stats, reads and fits ends with the file's
bytes at the start of the destination and `stat.size` equal to their number. -/
theorem fs_load_ok (w : World) (path : String) (cap : Nat) (data buf : List Nat)
    (st : fm_locals) (h : loads_ok w path cap data) :
    fs_load w path (some buf) (some cap) st =
      .loaded { st with path := some path, fh := some path,
                        trace := st.trace ++ [.fs_open path true] }
        (mem_write buf data) data.length := by
  obtain ⟨hf, hc⟩ := h
  simp [fs_load, fs_stat_file, fs_read_file, hf, Nat.not_lt.mpr hc]

/-! ### The checksum tells apart images that differ in one byte -/

theorem crc32_shift_lt (x : Nat) (hx : x < 2 ^ 32) : crc32_shift x < 2 ^ 32 := by
  unfold crc32_shift
  have h1 : x >>> 1 < 2 ^ 32 := by
    rw [Nat.shiftRight_eq_div_pow]; omega
  split
  · exact Nat.xor_lt_two_pow h1 (by norm_num)
  · exact h1

theorem xor_poly_ge (a : Nat) (ha : a < 2 ^ 31) : 2 ^ 31 ≤ a ^^^ 0xEDB88320 := by
  apply Nat.testBit_implies_ge
  rw [Nat.testBit_xor, Nat.testBit_lt_two_pow ha]
  decide

theorem crc32_shift_inj (x y : Nat) (hx : x < 2 ^ 32) (hy : y < 2 ^ 32)
    (h : crc32_shift x = crc32_shift y) : x = y := by
  unfold crc32_shift at h
  have ex : x >>> 1 = x / 2 := by rw [Nat.shiftRight_eq_div_pow]
  have ey : y >>> 1 = y / 2 := by rw [Nat.shiftRight_eq_div_pow]
  have hx1 : x >>> 1 < 2 ^ 31 := by omega
  have hy1 : y >>> 1 < 2 ^ 31 := by omega
  have gx := xor_poly_ge _ hx1
  have gy := xor_poly_ge _ hy1
  split_ifs at h with a b b
  · have := Nat.xor_left_injective h
    omega
  · omega
  · omega
  · omega

theorem crc32_shift_iterate_lt (n x : Nat) (hx : x < 2 ^ 32) : crc32_shift^[n] x < 2 ^ 32 := by
  induction n generalizing x with
  | zero => simpa using hx
  | succ k ih =>
    rw [Function.iterate_succ_apply]
    exact ih _ (crc32_shift_lt x hx)

theorem crc32_shift_iterate_inj (n x y : Nat) (hx : x < 2 ^ 32) (hy : y < 2 ^ 32)
    (h : crc32_shift^[n] x = crc32_shift^[n] y) : x = y := by
  induction n generalizing x y with
  | zero => simpa using h
  | succ k ih =>
    rw [Function.iterate_succ_apply, Function.iterate_succ_apply] at h
    exact crc32_shift_inj x y hx hy (ih _ _ (crc32_shift_lt x hx) (crc32_shift_lt y hy) h)

theorem xor_byte_lt (c b : Nat) (hc : c < 2 ^ 32) (hb : b < 256) : c ^^^ b < 2 ^ 32 :=
  Nat.xor_lt_two_pow hc (by omega)

theorem crc32_update_lt (c b : Nat) (hc : c < 2 ^ 32) (hb : b < 256) :
    crc32_update c b < 2 ^ 32 :=
  crc32_shift_iterate_lt 8 _ (xor_byte_lt c b hc hb)

theorem crc32_update_inj_state (c d b : Nat) (hc : c < 2 ^ 32) (hd : d < 2 ^ 32) (hb : b < 256)
    (h : crc32_update c b = crc32_update d b) : c = d :=
  Nat.xor_left_injective
    (crc32_shift_iterate_inj 8 _ _ (xor_byte_lt c b hc hb) (xor_byte_lt d b hd hb) h)

theorem crc32_update_inj_byte (c x y : Nat) (hc : c < 2 ^ 32) (hx : x < 256) (hy : y < 256)
    (h : crc32_update c x = crc32_update c y) : x = y :=
  Nat.xor_right_injective
    (crc32_shift_iterate_inj 8 _ _ (xor_byte_lt c x hc hx) (xor_byte_lt c y hc hy) h)

theorem crc32_foldl_lt (l : List Nat) (c : Nat) (hc : c < 2 ^ 32) (hl : ∀ b ∈ l, b < 256) :
    l.foldl crc32_update c < 2 ^ 32 := by
  induction l generalizing c with
  | nil => simpa using hc
  | cons b t ih =>
    simp only [List.foldl_cons]
    exact ih _ (crc32_update_lt c b hc (hl b (by simp))) (fun x hx => hl x (by simp [hx]))

theorem crc32_foldl_inj (l : List Nat) (c d : Nat) (hc : c < 2 ^ 32) (hd : d < 2 ^ 32)
    (hl : ∀ b ∈ l, b < 256) (h : l.foldl crc32_update c = l.foldl crc32_update d) : c = d := by
  induction l generalizing c d with
  | nil => simpa using h
  | cons b t ih =>
    simp only [List.foldl_cons] at h
    have hb : b < 256 := hl b (by simp)
    exact crc32_update_inj_state c d b hc hd hb
      (ih _ _ (crc32_update_lt c b hc hb) (crc32_update_lt d b hd hb)
        (fun x hx => hl x (by simp [hx])) h)

/-- Two byte strings that differ in one byte only have different checksums. -/
theorem crc32_single_byte (pre suf : List Nat) (x y seed : Nat) (hseed : seed < 2 ^ 32)
    (hpre : ∀ b ∈ pre, b < 256) (hsuf : ∀ b ∈ suf, b < 256) (hx : x < 256) (hy : y < 256)
    (hxy : x ≠ y) :
    tegrabl_utils_crc32 seed (pre ++ x :: suf) ≠ tegrabl_utils_crc32 seed (pre ++ y :: suf) := by
  intro h
  unfold tegrabl_utils_crc32 at h
  have h' := Nat.xor_left_injective h
  simp only [List.foldl_append, List.foldl_cons] at h'
  have hs : pre.foldl crc32_update (seed ^^^ 0xFFFFFFFF) < 2 ^ 32 :=
    crc32_foldl_lt pre _ (Nat.xor_lt_two_pow hseed (by norm_num)) hpre
  have := crc32_foldl_inj suf _ _ (crc32_update_lt _ x hs hx) (crc32_update_lt _ y hs hy) hsuf h'
  exact hxy (crc32_update_inj_byte _ x y hs hx hy this)

theorem getD_mem_write (buf data : List Nat) (i : Nat) (hi : i < data.length) :
    (mem_write buf data).getD i 0 = data.getD i 0 := by
  simp [mem_write, List.getD_eq_getElem?_getD, List.getElem?_append_left hi]

/-- A list that agrees with `p` away from `k` is `p` with the entry `k` replaced. -/
theorem eq_set_of_agree (p q : List Nat) (k : Nat) (hl : q.length = p.length)
    (h : ∀ i, i < p.length → i ≠ k → q.getD i 0 = p.getD i 0) :
    q = p.set k (q.getD k 0) := by
  apply List.ext_getElem
  · simp [hl]
  · intro i h1 h2
    rw [List.getElem_set]
    split
    · next hk => subst hk; simp [List.getD_eq_getElem?_getD, h1]
    · next hk =>
      have hp : i < p.length := by simpa using h2
      have := h i hp (fun e => hk e.symm)
      simpa [List.getD_eq_getElem?_getD, h1, hp] using this

theorem crc32_differs_at_one (p q : List Nat) (k : Nat) (hl : q.length = p.length)
    (hk : k < p.length) (hp : ∀ b ∈ p, b < 256) (hq : ∀ b ∈ q, b < 256)
    (h : ∀ i, i < p.length → i ≠ k → q.getD i 0 = p.getD i 0)
    (hne : p.getD k 0 ≠ q.getD k 0) :
    tegrabl_utils_crc32 0 p ≠ tegrabl_utils_crc32 0 q := by
  have eq := eq_set_of_agree p q k hl h
  have ep : p = p.set k (p.getD k 0) := eq_set_of_agree p p k rfl (fun _ _ _ => rfl)
  rw [List.set_eq_take_append_cons_drop, if_pos hk] at eq ep
  have hqk : q.getD k 0 < 256 := by
    have : k < q.length := by omega
    rw [List.getD_eq_getElem _ _ this]
    exact hq _ (List.getElem_mem _)
  have hpk : p.getD k 0 < 256 := by
    rw [List.getD_eq_getElem _ _ hk]
    exact hp _ (List.getElem_mem _)
  rw [eq]
  nth_rewrite 1 [ep]
  exact crc32_single_byte _ _ _ _ 0 (by norm_num)
    (fun b hb => hp b (List.mem_of_mem_take hb)) (fun b hb => hp b (List.mem_of_mem_drop hb))
    hpk hqk hne

/-! ### The three checksum branches -/

/-- The result of the primary-intact branch: the primary image is loaded a second
time, over copy2. -/
theorem fm_read_branch_intact (w : World) (g : Option tegrabl_fm_handle)
    (h : tegrabl_fm_handle) (mp : String) (pn : Option String) (buf : List Nat) (cap : Nat)
    (flag : Bool) (primary copy1 copy2 : List Nat)
    (hmp : h.mount_path = some mp)
    (hlen : mp.utf8ByteSize + "/boot/Image".utf8ByteSize < 200)
    (h1 : loads_ok w (mp ++ "/boot/Image") cap primary)
    (h2 : loads_ok w (mp ++ IMAGE_COPY1_PATH) cap copy1)
    (h3 : loads_ok w (mp ++ IMAGE_COPY2_PATH) cap copy2)
    (hcrc : tegrabl_utils_crc32 0 primary = tegrabl_utils_crc32 0 copy1 ∨
      tegrabl_utils_crc32 0 primary = tegrabl_utils_crc32 0 copy2) :
    tegrabl_fm_read w g (some h) (some "/boot/Image") pn (some buf) (some cap) (some flag) =
      .ok (fm_loaded h (some false)
        { err := TEGRABL_NO_ERROR, path := some (mp ++ "/boot/Image"),
          fh := some (mp ++ "/boot/Image"),
          trace := [.fs_open (mp ++ "/boot/Image") true, .fs_open (mp ++ IMAGE_COPY1_PATH) true,
            .fs_open (mp ++ IMAGE_COPY2_PATH) true, .fs_open (mp ++ "/boot/Image") true] }
        (mem_write (mem_write (mem_write (mem_write buf primary) copy1) copy2) primary)
        primary.length) := by
  have hlen' : ¬ (200 ≤ mp.utf8ByteSize + "/boot/Image".utf8ByteSize) := Nat.not_le.mpr hlen
  simp [tegrabl_fm_read, hmp, hlen', fs_load_ok _ _ _ _ _ _ h1, verify_image,
    fs_load_ok _ _ _ _ _ _ h2, fs_load_ok _ _ _ _ _ _ h3, take_mem_write, hcrc]

/-- The result of the backups-agree branch: the destination is left as the load of
copy2 left it. -/
theorem fm_read_branch_backups (w : World) (g : Option tegrabl_fm_handle)
    (h : tegrabl_fm_handle) (mp : String) (pn : Option String) (buf : List Nat) (cap : Nat)
    (flag : Bool) (primary copy1 copy2 : List Nat)
    (hmp : h.mount_path = some mp)
    (hlen : mp.utf8ByteSize + "/boot/Image".utf8ByteSize < 200)
    (h1 : loads_ok w (mp ++ "/boot/Image") cap primary)
    (h2 : loads_ok w (mp ++ IMAGE_COPY1_PATH) cap copy1)
    (h3 : loads_ok w (mp ++ IMAGE_COPY2_PATH) cap copy2)
    (hac : tegrabl_utils_crc32 0 primary ≠ tegrabl_utils_crc32 0 copy2)
    (hbc : tegrabl_utils_crc32 0 copy1 = tegrabl_utils_crc32 0 copy2) :
    tegrabl_fm_read w g (some h) (some "/boot/Image") pn (some buf) (some cap) (some flag) =
      .ok (fm_loaded h (some false)
        { err := TEGRABL_NO_ERROR, path := some (mp ++ IMAGE_COPY2_PATH),
          fh := some (mp ++ IMAGE_COPY2_PATH),
          trace := [.fs_open (mp ++ "/boot/Image") true, .fs_open (mp ++ IMAGE_COPY1_PATH) true,
            .fs_open (mp ++ IMAGE_COPY2_PATH) true] }
        (mem_write (mem_write (mem_write buf primary) copy1) copy2) copy2.length) := by
  have hlen' : ¬ (200 ≤ mp.utf8ByteSize + "/boot/Image".utf8ByteSize) := Nat.not_le.mpr hlen
  simp [tegrabl_fm_read, hmp, hlen', fs_load_ok _ _ _ _ _ _ h1, verify_image,
    fs_load_ok _ _ _ _ _ _ h2, fs_load_ok _ _ _ _ _ _ h3, take_mem_write, hac, hbc]

/-- C1: a call of `tegrabl_fm_read` with `file_path` equal to `/boot/Image` on a handle
with a mount prefix (short enough for the path buffer), in which the primary image,
copy1 and copy2 all open, stat and read with success and fit in the capacity, and the
checksum of the primary equals that of copy1 or that of copy2, returns no error, sets
`loaded_from_filesystem` to true, and leaves the primary image in the first
primary-size bytes of the destination. -/
theorem fm_read_primary_intact (w : World) (g : Option tegrabl_fm_handle)
    (h : tegrabl_fm_handle) (mp : String) (pn : Option String) (buf : List Nat) (cap : Nat)
    (flag : Bool) (primary copy1 copy2 : List Nat)
    (hmp : h.mount_path = some mp)
    (hlen : mp.utf8ByteSize + "/boot/Image".utf8ByteSize < 200)
    (h1 : loads_ok w (mp ++ "/boot/Image") cap primary)
    (h2 : loads_ok w (mp ++ IMAGE_COPY1_PATH) cap copy1)
    (h3 : loads_ok w (mp ++ IMAGE_COPY2_PATH) cap copy2)
    (hcrc : tegrabl_utils_crc32 0 primary = tegrabl_utils_crc32 0 copy1 ∨
      tegrabl_utils_crc32 0 primary = tegrabl_utils_crc32 0 copy2) :
    ∃ r dest, tegrabl_fm_read w g (some h) (some "/boot/Image") pn (some buf) (some cap)
        (some flag) = .ok r ∧
      r.err = TEGRABL_NO_ERROR ∧ r.is_file_loaded_from_fs = some true ∧
      r.load_address = some dest ∧ dest.take primary.length = primary := by
  have hlen' : ¬ (200 ≤ mp.utf8ByteSize + "/boot/Image".utf8ByteSize) := Nat.not_le.mpr hlen
  simp [tegrabl_fm_read, hmp, hlen', fs_load_ok _ _ _ _ _ _ h1, verify_image,
    fs_load_ok _ _ _ _ _ _ h2, fs_load_ok _ _ _ _ _ _ h3, take_mem_write, hcrc, fm_loaded,
    fm_exit, TEGRABL_NO_ERROR]

/-- The statement C1 in a world whose copy1 equals the primary image. -/
theorem fm_read_primary_intact_witness :
    ∃ r dest, tegrabl_fm_read world_intact none (some sd_handle) (some "/boot/Image")
        (some "kernel") (some [0, 0, 0, 0]) (some 4) (some false) = .ok r ∧
      r.err = TEGRABL_NO_ERROR ∧ r.is_file_loaded_from_fs = some true ∧
      r.load_address = some dest ∧ dest.take [1, 2, 3].length = [1, 2, 3] :=
  fm_read_primary_intact world_intact none sd_handle "/sd" (some "kernel") [0, 0, 0, 0] 4
    false [1, 2, 3] [1, 2, 3] [1, 2, 4] (by decide) (by decide) (by decide) (by decide)
    (by decide) (by decide)

/-- C2: a call of `tegrabl_fm_read` with `file_path` equal to `/boot/Image` in which all
three files load with success, the checksum of the primary differs from the checksums
of copy1 and of copy2, and copy1 and copy2 are byte-identical, returns no error with
`loaded_from_filesystem` true and leaves copy2's content in the first copy2-size bytes
of the destination. -/
theorem fm_read_backups_agree (w : World) (g : Option tegrabl_fm_handle)
    (h : tegrabl_fm_handle) (mp : String) (pn : Option String) (buf : List Nat) (cap : Nat)
    (flag : Bool) (primary copy1 copy2 : List Nat)
    (hmp : h.mount_path = some mp)
    (hlen : mp.utf8ByteSize + "/boot/Image".utf8ByteSize < 200)
    (h1 : loads_ok w (mp ++ "/boot/Image") cap primary)
    (h2 : loads_ok w (mp ++ IMAGE_COPY1_PATH) cap copy1)
    (h3 : loads_ok w (mp ++ IMAGE_COPY2_PATH) cap copy2)
    (hab : tegrabl_utils_crc32 0 primary ≠ tegrabl_utils_crc32 0 copy1)
    (hac : tegrabl_utils_crc32 0 primary ≠ tegrabl_utils_crc32 0 copy2)
    (hbc : copy1 = copy2) :
    ∃ r dest, tegrabl_fm_read w g (some h) (some "/boot/Image") pn (some buf) (some cap)
        (some flag) = .ok r ∧
      r.err = TEGRABL_NO_ERROR ∧ r.is_file_loaded_from_fs = some true ∧
      r.load_address = some dest ∧ dest.take copy2.length = copy2 := by
  have hlen' : ¬ (200 ≤ mp.utf8ByteSize + "/boot/Image".utf8ByteSize) := Nat.not_le.mpr hlen
  subst hbc
  simp [tegrabl_fm_read, hmp, hlen', fs_load_ok _ _ _ _ _ _ h1, verify_image,
    fs_load_ok _ _ _ _ _ _ h2, fs_load_ok _ _ _ _ _ _ h3, take_mem_write, hab, fm_loaded,
    fm_exit, TEGRABL_NO_ERROR]

/-- The statement C2 in a world whose copies agree and differ from the primary image. -/
theorem fm_read_backups_agree_witness :
    ∃ r dest, tegrabl_fm_read world_backups_agree none (some sd_handle) (some "/boot/Image")
        (some "kernel") (some [0, 0, 0, 0]) (some 4) (some false) = .ok r ∧
      r.err = TEGRABL_NO_ERROR ∧ r.is_file_loaded_from_fs = some true ∧
      r.load_address = some dest ∧ dest.take [3].length = [3] :=
  fm_read_backups_agree world_backups_agree none sd_handle "/sd" (some "kernel") [0, 0, 0, 0] 4
    false [1, 2] [3] [3] (by decide) (by decide) (by decide) (by decide)
    (by decide) (by decide) (by decide) (by decide)

/-- C3: for three images of equal length that agree at every offset except one offset
`k`, where copy1 and copy2 both hold `v` and the primary holds another value, a call of
`tegrabl_fm_read` on `/boot/Image` in which every file operation succeeds returns no
error, and afterwards the destination holds `v` at offset `k` and the primary's byte at
every other offset of the image. -/
theorem fm_read_single_offset (w : World) (g : Option tegrabl_fm_handle)
    (h : tegrabl_fm_handle) (mp : String) (pn : Option String) (buf : List Nat) (cap : Nat)
    (flag : Bool) (primary copy1 copy2 : List Nat) (k v : Nat)
    (hmp : h.mount_path = some mp)
    (hlen : mp.utf8ByteSize + "/boot/Image".utf8ByteSize < 200)
    (h1 : loads_ok w (mp ++ "/boot/Image") cap primary)
    (h2 : loads_ok w (mp ++ IMAGE_COPY1_PATH) cap copy1)
    (h3 : loads_ok w (mp ++ IMAGE_COPY2_PATH) cap copy2)
    (hb1 : ∀ b ∈ primary, b < 256) (hb3 : ∀ b ∈ copy2, b < 256)
    (hl2 : copy1.length = primary.length) (hl3 : copy2.length = primary.length)
    (hk : k < primary.length)
    (hs2 : ∀ i, i < primary.length → i ≠ k → copy1.getD i 0 = primary.getD i 0)
    (hs3 : ∀ i, i < primary.length → i ≠ k → copy2.getD i 0 = primary.getD i 0)
    (hv2 : copy1.getD k 0 = v) (hv3 : copy2.getD k 0 = v) (hvp : primary.getD k 0 ≠ v) :
    ∃ r dest, tegrabl_fm_read w g (some h) (some "/boot/Image") pn (some buf) (some cap)
        (some flag) = .ok r ∧
      r.err = TEGRABL_NO_ERROR ∧ r.load_address = some dest ∧ dest.getD k 0 = v ∧
      ∀ i, i < primary.length → i ≠ k → dest.getD i 0 = primary.getD i 0 := by
  have e2 := eq_set_of_agree primary copy1 k hl2 hs2
  have e3 := eq_set_of_agree primary copy2 k hl3 hs3
  have e23 : copy1 = copy2 := by rw [e2, e3, hv2, hv3]
  have hac : tegrabl_utils_crc32 0 primary ≠ tegrabl_utils_crc32 0 copy2 :=
    crc32_differs_at_one primary copy2 k hl3 hk hb1 hb3 hs3 (by rw [hv3]; exact hvp)
  refine ⟨_, _, fm_read_branch_backups w g h mp pn buf cap flag primary copy1 copy2 hmp hlen
    h1 h2 h3 hac (by rw [e23]), rfl, rfl, ?_, ?_⟩
  · rw [getD_mem_write _ _ _ (by omega)]
    exact hv3
  · intro i hi hik
    rw [getD_mem_write _ _ _ (by omega)]
    exact hs3 i hi hik

/-- The statement C3 for the primary image `[1, 2, 3]` and the copies `[1, 7, 3]`. -/
theorem fm_read_single_offset_witness :
    ∃ r dest, tegrabl_fm_read world_one_offset none (some sd_handle) (some "/boot/Image")
        (some "kernel") (some [0, 0, 0, 0]) (some 4) (some false) = .ok r ∧
      r.err = TEGRABL_NO_ERROR ∧ r.load_address = some dest ∧ dest.getD 1 0 = 7 ∧
      ∀ i, i < [1, 2, 3].length → i ≠ 1 → dest.getD i 0 = [1, 2, 3].getD i 0 :=
  fm_read_single_offset world_one_offset none sd_handle "/sd" (some "kernel") [0, 0, 0, 0] 4
    false [1, 2, 3] [1, 7, 3] [1, 7, 3] 1 7 (by decide) (by decide) (by decide) (by decide)
    (by decide) (by decide) (by decide) (by decide) (by decide) (by decide) (by decide)
    (by decide) (by decide) (by decide) (by decide)

/-- C4 (the code departs from it): the bytes 0x80, 0x81 and 0x82 are pairwise distinct
and their per-bit majority is 0x80, but the byte that lines 536-566 record for them
is 0 or 1, whatever the stack slot read as `out1[8]` holds: the loop of line 556 runs
over the indices 8..1, so the most significant bit `out1[0]` is never packed. A call of
`tegrabl_fm_read` on three images that start with these bytes leaves 0 at offset 0. -/
theorem corrected_byte_loses_msb (oob : Nat) :
    (0x80 &&& 0x81) ||| (0x80 &&& 0x82) ||| (0x81 &&& 0x82) = 0x80 ∧
    corrected_byte oob 0x80 0x81 0x82 = (if oob = 1 then 1 else 0) ∧
    corrected_byte oob 0x80 0x81 0x82 ≠ 0x80 ∧
    (tegrabl_fm_read world_three_way none (some sd_handle) (some "/boot/Image") (some "kernel")
        (some [0, 0, 0, 0]) (some 4) (some false)).toOption.map (fun r => r.load_address) =
      some (some [0, 2, 0, 0]) := by
  have e : corrected_byte oob 0x80 0x81 0x82 = (if oob = 1 then 1 else 0) := by
    have hv : vote_bits (unpack_bits 8 0x80) (unpack_bits 8 0x81) (unpack_bits 8 0x82) =
        [1, 0, 0, 0, 0, 0, 0, 0] := by decide
    unfold corrected_byte
    rw [hv]
    by_cases h : oob = 1
    · subst h
      decide
    · simp [pack_bits, h]
  refine ⟨by decide, e, ?_, by decide⟩
  rw [e]
  split <;> decide

/-- A load block with a failing step jumps to `load_from_partition` with an error
recorded and the destination as it was. -/
theorem fs_load_fails (w : World) (path : String) (cap : Nat) (buf : List Nat)
    (st : fm_locals) (h : load_fails w path cap) :
    ∃ st', fs_load w path (some buf) (some cap) st = .load_from_partition st' (some buf) ∧
      st'.err ≠ TEGRABL_NO_ERROR := by
  unfold load_fails at h
  cases hf : w.fs path with
  | none => simp [fs_load, hf, TEGRABL_ERROR, TEGRABL_NO_ERROR]
  | some f =>
    rw [hf] at h
    by_cases hs : f.stat_ok = true
    · by_cases hc : cap < f.data.length
      · simp [fs_load, fs_stat_file, hf, hs, hc, TEGRABL_ERROR, TEGRABL_NO_ERROR]
      · have hr : f.read_ok = false := by
          rcases h with h | h | h
          · simp [hs] at h
          · exact absurd h hc
          · exact h
        simp [fs_load, fs_stat_file, fs_read_file, hf, hs, hc, hr, TEGRABL_ERROR,
          TEGRABL_NO_ERROR]
    · simp [fs_load, fs_stat_file, hf, hs, TEGRABL_ERROR, TEGRABL_NO_ERROR]

/-- C5: a call of `tegrabl_fm_read` with a present handle (with a mount prefix), a present
file path and a present fallback partition name, in which a step of the load of the
file fails (the file is absent, its stat fails, it is larger than the capacity, or its
read fails), returns exactly what `tegrabl_fm_read_partition` returns on the handle's
device, that name, the destination and the capacity: the same error, the same
destination content and the same capacity output; and `loaded_from_filesystem` is
false. -/
theorem fm_read_fallback (w : World) (g : Option tegrabl_fm_handle) (h : tegrabl_fm_handle)
    (mp fp name : String) (buf : List Nat) (cap : Nat) (flag : Bool)
    (hmp : h.mount_path = some mp) (hfail : load_fails w (mp ++ fp) cap) :
    ∃ r, tegrabl_fm_read w g (some h) (some fp) (some name) (some buf) (some cap) (some flag)
        = .ok r ∧
      r.err = (tegrabl_fm_read_partition w h.bdev (some name) (some buf) (some cap)).err ∧
      r.load_address =
        (tegrabl_fm_read_partition w h.bdev (some name) (some buf) (some cap)).load_address ∧
      r.size = (tegrabl_fm_read_partition w h.bdev (some name) (some buf) (some cap)).size ∧
      r.is_file_loaded_from_fs = some false := by
  obtain ⟨st', e, -⟩ := fs_load_fails w (mp ++ fp) cap buf
    { err := TEGRABL_NO_ERROR, path := none, fh := none, trace := [] } hfail
  by_cases hlen : 200 ≤ mp.utf8ByteSize + fp.utf8ByteSize
  · simp [tegrabl_fm_read, hmp, hlen, load_from_partition, fm_exit]
  · simp [tegrabl_fm_read, hmp, hlen, e, load_from_partition, fm_exit]

/-- The statement C5 for a path that the filesystem does not hold. -/
theorem fm_read_fallback_witness :
    ∃ r, tegrabl_fm_read world_partition_only none (some sd_handle) (some "/boot/dtb")
        (some "kernel") (some [0, 0, 0, 0, 0]) (some 5) (some true) = .ok r ∧
      r.err = (tegrabl_fm_read_partition world_partition_only sd_handle.bdev (some "kernel")
        (some [0, 0, 0, 0, 0]) (some 5)).err ∧
      r.load_address = (tegrabl_fm_read_partition world_partition_only sd_handle.bdev
        (some "kernel") (some [0, 0, 0, 0, 0]) (some 5)).load_address ∧
      r.size = (tegrabl_fm_read_partition world_partition_only sd_handle.bdev (some "kernel")
        (some [0, 0, 0, 0, 0]) (some 5)).size ∧
      r.is_file_loaded_from_fs = some false :=
  fm_read_fallback world_partition_only none sd_handle "/sd" "/boot/dtb" "kernel"
    [0, 0, 0, 0, 0] 5 true (by decide) (by decide)

/-- C6 fails as stated: with the primary image present, copy1 absent and a fallback
partition `kernel`, the call leaves the filesystem path at the failed open of copy1:
the partition reader is invoked, the destination holds the partition, and
`loaded_from_filesystem` is false. -/
theorem fm_read_copy1_missing_falls_back :
    tegrabl_fm_read world_copy1_missing none (some sd_handle) (some "/boot/Image")
        (some "kernel") (some [0, 0, 0, 0]) (some 4) (some false) =
      .ok { err := TEGRABL_NO_ERROR, load_address := some [9, 8, 7, 6], size := some 4,
            is_file_loaded_from_fs := some false, fm_handle := none,
            path := some "/sd/boot/copy1",
            trace := [.fs_open "/sd/boot/Image" true, .fs_open "/sd/boot/copy1" false,
              .read_partition_call, .partition_read "kernel" 4, .fs_close "/sd/boot/Image"] } := by
  decide

/-- C6 as amended: in a call of `tegrabl_fm_read` on `/boot/Image` in which the primary
image loads and a step of the load of copy1, or (copy1 loaded) of copy2, fails, the
failure takes the `load_from_partition` path like a failure on the primary:
`loaded_from_filesystem` stays false and the process-wide handle is left as it was;
without a fallback name the call returns an error and the capacity as given; with a
fallback name the partition reader is invoked, on the destination as the loads so far
left it, and its error, destination and capacity output are the call's. -/
theorem fm_read_backup_failure (w : World) (g : Option tegrabl_fm_handle)
    (h : tegrabl_fm_handle) (mp : String) (pn : Option String) (buf : List Nat) (cap : Nat)
    (flag : Bool) (primary copy1 : List Nat)
    (hmp : h.mount_path = some mp)
    (hlen : mp.utf8ByteSize + "/boot/Image".utf8ByteSize < 200)
    (h1 : loads_ok w (mp ++ "/boot/Image") cap primary)
    (hf : load_fails w (mp ++ IMAGE_COPY1_PATH) cap ∨
      (loads_ok w (mp ++ IMAGE_COPY1_PATH) cap copy1 ∧
        load_fails w (mp ++ IMAGE_COPY2_PATH) cap)) :
    ∃ r, tegrabl_fm_read w g (some h) (some "/boot/Image") pn (some buf) (some cap)
        (some flag) = .ok r ∧
      r.is_file_loaded_from_fs = some false ∧ r.fm_handle = g ∧
      (pn = none → r.err ≠ TEGRABL_NO_ERROR ∧ r.size = some cap) ∧
      (∀ name, pn = some name → Event.read_partition_call ∈ r.trace ∧
        ∃ dest, (dest = mem_write buf primary ∨
            dest = mem_write (mem_write buf primary) copy1) ∧
          r.err = (tegrabl_fm_read_partition w h.bdev (some name) (some dest) (some cap)).err ∧
          r.load_address =
            (tegrabl_fm_read_partition w h.bdev (some name) (some dest) (some cap)).load_address ∧
          r.size =
            (tegrabl_fm_read_partition w h.bdev (some name) (some dest) (some cap)).size) := by
  have hlen' : ¬ (200 ≤ mp.utf8ByteSize + "/boot/Image".utf8ByteSize) := Nat.not_le.mpr hlen
  rcases hf with hf | ⟨h2, hf⟩
  · obtain ⟨st', e, herr⟩ := fs_load_fails w (mp ++ IMAGE_COPY1_PATH) cap (mem_write buf primary)
      { err := TEGRABL_NO_ERROR, path := some (mp ++ "/boot/Image"),
        fh := some (mp ++ "/boot/Image"), trace := [.fs_open (mp ++ "/boot/Image") true] } hf
    cases pn with
    | none =>
      simp [tegrabl_fm_read, hmp, hlen', fs_load_ok _ _ _ _ _ _ h1, verify_image, e,
        load_from_partition, fm_exit, herr]
    | some name =>
      simp [tegrabl_fm_read, hmp, hlen', fs_load_ok _ _ _ _ _ _ h1, verify_image, e,
        load_from_partition, fm_exit]
      split <;> simp
  · obtain ⟨st', e, herr⟩ := fs_load_fails w (mp ++ IMAGE_COPY2_PATH) cap
      (mem_write (mem_write buf primary) copy1)
      { err := TEGRABL_NO_ERROR, path := some (mp ++ IMAGE_COPY1_PATH),
        fh := some (mp ++ IMAGE_COPY1_PATH),
        trace := [.fs_open (mp ++ "/boot/Image") true, .fs_open (mp ++ IMAGE_COPY1_PATH) true] } hf
    cases pn with
    | none =>
      simp [tegrabl_fm_read, hmp, hlen', fs_load_ok _ _ _ _ _ _ h1, verify_image,
        fs_load_ok _ _ _ _ _ _ h2, e, load_from_partition, fm_exit, herr]
    | some name =>
      simp [tegrabl_fm_read, hmp, hlen', fs_load_ok _ _ _ _ _ _ h1, verify_image,
        fs_load_ok _ _ _ _ _ _ h2, e, load_from_partition, fm_exit]
      split <;> simp

/-- The amended statement C6 in the world without copy1. -/
theorem fm_read_backup_failure_witness :
    ∃ r, tegrabl_fm_read world_copy1_missing none (some sd_handle) (some "/boot/Image")
        (some "kernel") (some [0, 0, 0, 0]) (some 4) (some false) = .ok r ∧
      r.is_file_loaded_from_fs = some false ∧ r.fm_handle = none ∧
      Event.read_partition_call ∈ r.trace := by
  obtain ⟨r, e, hflag, hg, -, hp⟩ := fm_read_backup_failure world_copy1_missing none sd_handle
    "/sd" (some "kernel") [0, 0, 0, 0] 4 false [1, 2, 3] [] (by decide) (by decide) (by decide)
    (Or.inl (by decide))
  exact ⟨r, e, hflag, hg, (hp "kernel" rfl).1⟩

theorem utf8ByteSize_append (a b : String) :
    (a ++ b).utf8ByteSize = a.utf8ByteSize + b.utf8ByteSize := by
  cases a with | mk a => cases b with | mk b =>
  show String.utf8ByteSize ⟨a ++ b⟩ = _
  simp [String.utf8Len_append]

/-- The partition reader opens no file. -/
theorem read_partition_opens_nothing (w : World) (bdev : Option tegrabl_bdev_t)
    (name : Option String) (buf : Option (List Nat)) (size : Option Nat) :
    ∀ p ok, Event.fs_open p ok ∉ (tegrabl_fm_read_partition w bdev name buf size).trace := by
  intro p ok
  unfold tegrabl_fm_read_partition
  split
  · split
    · simp
    · dsimp only
      split_ifs
      · simp
      · simp
      · split <;> simp
  · simp

/-- C10: in a call of `tegrabl_fm_read` with a present handle whose mount prefix and the
given file path have a combined length of 200 bytes or more, no file is opened and the
path buffer is never written; the Overflow error (aux 2) is recorded and the fallback
path is taken: the call returns that error when the fallback partition name is absent,
and the partition reader's error, destination and capacity output when it is present.
And when the combined length is below 200, the concatenated path with its terminator
fits in the 200 bytes of the buffer. -/
theorem fm_read_path_too_long (w : World) (g : Option tegrabl_fm_handle)
    (h : tegrabl_fm_handle) (mp fp : String) (pn : Option String)
    (load_address : Option (List Nat)) (size : Option Nat) (flag : Option Bool)
    (hmp : h.mount_path = some mp) :
    (200 ≤ mp.utf8ByteSize + fp.utf8ByteSize →
      ∃ r, tegrabl_fm_read w g (some h) (some fp) pn load_address size flag = .ok r ∧
        r.path = none ∧ (∀ p ok, Event.fs_open p ok ∉ r.trace) ∧
        (pn = none → r.err = TEGRABL_ERROR .TEGRABL_ERR_OVERFLOW 0x2) ∧
        (∀ name, pn = some name → Event.read_partition_call ∈ r.trace ∧
          r.err = (tegrabl_fm_read_partition w h.bdev (some name) load_address size).err ∧
          r.load_address =
            (tegrabl_fm_read_partition w h.bdev (some name) load_address size).load_address ∧
          r.size = (tegrabl_fm_read_partition w h.bdev (some name) load_address size).size)) ∧
    (mp.utf8ByteSize + fp.utf8ByteSize < 200 → (mp ++ fp).utf8ByteSize + 1 ≤ 200) := by
  constructor
  · intro hlen
    cases pn with
    | none => simp [tegrabl_fm_read, hmp, hlen, load_from_partition, fm_exit]
    | some name =>
      simp [tegrabl_fm_read, hmp, hlen, load_from_partition, fm_exit]
      exact fun p => ⟨read_partition_opens_nothing w h.bdev (some name) load_address size p false,
        read_partition_opens_nothing w h.bdev (some name) load_address size p true⟩
  · intro hlen
    rw [utf8ByteSize_append]
    omega

set_option maxRecDepth 8000 in
/-- The statement C10 at a file path of 197 bytes behind the prefix `/sd`, without a
fallback partition name, and at the path `/boot/Image` behind the same prefix. -/
theorem fm_read_path_too_long_witness :
    (∃ r, tegrabl_fm_read world_intact none (some sd_handle) (some long_file_path) none
        (some [0, 0, 0, 0]) (some 4) (some false) = .ok r ∧
      r.path = none ∧ r.err = TEGRABL_ERROR .TEGRABL_ERR_OVERFLOW 0x2) ∧
    ("/sd" ++ "/boot/Image").utf8ByteSize + 1 ≤ 200 := by
  refine ⟨?_, (fm_read_path_too_long world_intact none sd_handle "/sd" "/boot/Image" none
    none none none (by decide)).2 (by decide)⟩
  obtain ⟨r, e, hp, -, he, -⟩ := (fm_read_path_too_long world_intact none sd_handle "/sd"
    long_file_path none (some [0, 0, 0, 0]) (some 4) (some false) (by decide)).1 (by decide)
  exact ⟨r, e, hp, he rfl⟩

/-! ### The window loop ends -/

theorem record_correction_cases (cap : Nat) (corr : List (Nat × Nat)) (off v : Nat) :
    (∃ c, record_correction cap corr off v = .ok c ∧ c.length ≤ corr.length + 1) ∨
    (record_correction cap corr off v = .error .corrections_overflow ∧ cap < corr.length + 1) := by
  unfold record_correction
  split
  · exact Or.inl ⟨_, rfl, by simp⟩
  · exact Or.inr ⟨rfl, by omega⟩

theorem compare_byte_cases (oob cap : Nat) (buf t2 t3 : List Nat) (start i : Nat)
    (corr : List (Nat × Nat)) :
    (∃ c, compare_byte oob cap buf t2 t3 start i corr = .ok c ∧ c.length ≤ corr.length + 1) ∨
    (compare_byte oob cap buf t2 t3 start i corr = .error .corrections_overflow ∧
      cap < corr.length + 1) := by
  unfold compare_byte
  dsimp only
  split_ifs
  · exact record_correction_cases _ _ _ _
  · exact record_correction_cases _ _ _ _
  · exact Or.inl ⟨_, rfl, by omega⟩

theorem compare_fold_cases (oob : Nat → Nat) (cap : Nat) (buf t2 t3 : List Nat) (start : Nat)
    (l : List Nat) (corr : List (Nat × Nat)) :
    (∃ c, l.foldlM (fun c i => compare_byte (oob (start + i)) cap buf t2 t3 start i c) corr
        = .ok c ∧ c.length ≤ corr.length + l.length) ∨
    (l.foldlM (fun c i => compare_byte (oob (start + i)) cap buf t2 t3 start i c) corr
        = .error .corrections_overflow ∧ cap < corr.length + l.length) := by
  induction l generalizing corr with
  | nil => exact Or.inl ⟨corr, rfl, by simp⟩
  | cons i t ih =>
    rw [List.foldlM_cons]
    rcases compare_byte_cases (oob (start + i)) cap buf t2 t3 start i corr with
      ⟨c, e, hc⟩ | ⟨e, hc⟩
    · rw [e]
      rcases ih c with ⟨c', e', hc'⟩ | ⟨e', hc'⟩
      · exact Or.inl ⟨c', e', by simp only [List.length_cons]; omega⟩
      · exact Or.inr ⟨e', by simp only [List.length_cons]; omega⟩
    · rw [e]
      exact Or.inr ⟨rfl, by simp only [List.length_cons]; omega⟩

theorem compare_window_cases (oob : Nat → Nat) (cap : Nat) (buf t2 t3 : List Nat)
    (start m : Nat) (corr : List (Nat × Nat)) :
    (∃ c, compare_window oob cap buf t2 t3 start m corr = .ok c ∧ c.length ≤ corr.length + m) ∨
    (compare_window oob cap buf t2 t3 start m corr = .error .corrections_overflow ∧
      cap < corr.length + m) := by
  have := compare_fold_cases oob cap buf t2 t3 start (List.range m) corr
  simpa [compare_window] using this

theorem scan_windows_cases (w : World) (W cap : Nat) (mp fp : String) (n : Nat) (hW : 0 < W)
    (fuel start : Nat) (st : fm_locals) (buf : List Nat) (corr : List (Nat × Nat))
    (hfuel : n - start ≤ fuel) :
    (∃ r, scan_windows w W cap mp fp n fuel start st buf corr = .ok r) ∨
    (scan_windows w W cap mp fp n fuel start st buf corr = .error .corrections_overflow ∧
      cap < corr.length + (n - start)) := by
  induction fuel generalizing start st buf corr with
  | zero =>
    have : ¬ start < n := by omega
    unfold scan_windows
    simp [this]
  | succ k ih =>
    unfold scan_windows
    by_cases hlt : start < n
    · simp only [hlt, if_true]
      rcases compare_window_cases w.oob cap
          (fs_reload w (mp ++ fp) n
            (fs_reload w (mp ++ IMAGE_COPY2_PATH) n
              (fs_reload w (mp ++ IMAGE_COPY1_PATH) n st buf).1
              (fs_reload w (mp ++ IMAGE_COPY1_PATH) n st buf).2).1
            (fs_reload w (mp ++ IMAGE_COPY2_PATH) n
              (fs_reload w (mp ++ IMAGE_COPY1_PATH) n st buf).1
              (fs_reload w (mp ++ IMAGE_COPY1_PATH) n st buf).2).2).2
          (copy_window (fs_reload w (mp ++ IMAGE_COPY1_PATH) n st buf).2 start
            (window_len W n start))
          (copy_window (fs_reload w (mp ++ IMAGE_COPY2_PATH) n
              (fs_reload w (mp ++ IMAGE_COPY1_PATH) n st buf).1
              (fs_reload w (mp ++ IMAGE_COPY1_PATH) n st buf).2).2 start
            (window_len W n start))
          start (window_len W n start) corr with ⟨c, e, hc⟩ | ⟨e, hc⟩
      · simp only [e]
        have hm : window_len W n start ≤ n - start := by unfold window_len; omega
        by_cases hov : start + W > n
        · simp only [hov, if_true]
          rcases ih n _ _ c (by omega) with h | ⟨h, hb⟩
          · exact Or.inl h
          · exact Or.inr ⟨h, by omega⟩
        · simp only [hov, if_false]
          have hm' : window_len W n start = W := by unfold window_len; omega
          rcases ih (start + W) _ _ c (by omega) with h | ⟨h, hb⟩
          · exact Or.inl h
          · exact Or.inr ⟨h, by omega⟩
      · simp only [e]
        have hm : window_len W n start ≤ n - start := by unfold window_len; omega
        exact Or.inr ⟨trivial, by omega⟩
    · simp [hlt]

theorem bit_repair_cases (w : World) (W cap : Nat) (mp fp : String) (n : Nat) (hW : 0 < W)
    (st : fm_locals) (buf : List Nat) :
    (∃ r, bit_repair w W cap mp fp n st buf = .ok r) ∨
    (bit_repair w W cap mp fp n st buf = .error .corrections_overflow ∧ cap < n) := by
  unfold bit_repair
  rcases scan_windows_cases w W cap mp fp n hW n 0 st buf [] (by omega) with ⟨r, e⟩ | ⟨e, hb⟩
  · rw [e]
    exact Or.inl ⟨_, rfl⟩
  · rw [e]
    exact Or.inr ⟨rfl, by simpa using hb⟩

/-- The result of the bit-level repair branch. -/
theorem fm_read_branch_repair (w : World) (g : Option tegrabl_fm_handle)
    (h : tegrabl_fm_handle) (mp : String) (pn : Option String) (buf : List Nat) (cap : Nat)
    (flag : Bool) (primary copy1 copy2 : List Nat)
    (hmp : h.mount_path = some mp)
    (hlen : mp.utf8ByteSize + "/boot/Image".utf8ByteSize < 200)
    (h1 : loads_ok w (mp ++ "/boot/Image") cap primary)
    (h2 : loads_ok w (mp ++ IMAGE_COPY1_PATH) cap copy1)
    (h3 : loads_ok w (mp ++ IMAGE_COPY2_PATH) cap copy2)
    (hab : tegrabl_utils_crc32 0 primary ≠ tegrabl_utils_crc32 0 copy1)
    (hac : tegrabl_utils_crc32 0 primary ≠ tegrabl_utils_crc32 0 copy2)
    (hbc : tegrabl_utils_crc32 0 copy1 ≠ tegrabl_utils_crc32 0 copy2) :
    tegrabl_fm_read w g (some h) (some "/boot/Image") pn (some buf) (some cap) (some flag) =
      match bit_repair w 2000000 1000000 mp "/boot/Image" copy2.length
        { err := TEGRABL_NO_ERROR, path := some (mp ++ IMAGE_COPY2_PATH),
          fh := some (mp ++ IMAGE_COPY2_PATH),
          trace := [.fs_open (mp ++ "/boot/Image") true, .fs_open (mp ++ IMAGE_COPY1_PATH) true,
            .fs_open (mp ++ IMAGE_COPY2_PATH) true] }
        (mem_write (mem_write (mem_write buf primary) copy1) copy2) with
      | .error f => .error f
      | .ok (st, dest) => .ok (fm_loaded h (some false) st dest copy2.length) := by
  have hlen' : ¬ (200 ≤ mp.utf8ByteSize + "/boot/Image".utf8ByteSize) := Nat.not_le.mpr hlen
  simp [tegrabl_fm_read, hmp, hlen', fs_load_ok _ _ _ _ _ _ h1, verify_image,
    fs_load_ok _ _ _ _ _ _ h2, fs_load_ok _ _ _ _ _ _ h3, take_mem_write, hab, hac, hbc]

theorem fs_reload_err (w : World) (path : String) (n : Nat) (st : fm_locals) (buf : List Nat) :
    (fs_reload w path n st buf).1.err = st.err := by
  unfold fs_reload
  dsimp only
  split <;> rfl

theorem scan_windows_err (w : World) (W cap : Nat) (mp fp : String) (n : Nat)
    (fuel start : Nat) (st : fm_locals) (buf : List Nat) (corr : List (Nat × Nat))
    (r : fm_locals × List Nat × List (Nat × Nat))
    (h : scan_windows w W cap mp fp n fuel start st buf corr = .ok r) : r.1.err = st.err := by
  induction fuel generalizing start st buf corr with
  | zero =>
    unfold scan_windows at h
    split at h
    · simp at h
    · injection h with h
      subst h
      rfl
  | succ k ih =>
    unfold scan_windows at h
    split at h
    · dsimp only at h
      split at h
      · simp at h
      · rw [ih _ _ _ _ h]
        simp [fs_reload_err]
    · injection h with h
      subst h
      rfl

theorem bit_repair_err (w : World) (W cap : Nat) (mp fp : String) (n : Nat)
    (st : fm_locals) (buf : List Nat) (r : fm_locals × List Nat)
    (h : bit_repair w W cap mp fp n st buf = .ok r) : r.1.err = st.err := by
  unfold bit_repair at h
  split at h
  · simp at h
  · next st' buf' corr e =>
    injection h with h
    subst h
    exact scan_windows_err w W cap mp fp n n 0 st buf [] _ e

theorem load_fails_or_ok (w : World) (path : String) (cap : Nat) :
    load_fails w path cap ∨ ∃ data, loads_ok w path cap data := by
  unfold load_fails loads_ok
  cases hf : w.fs path with
  | none => simp
  | some f =>
    obtain ⟨data, s, r⟩ := f
    by_cases hs : s = true
    · by_cases hr : r = true
      · by_cases hc : cap < data.length
        · simp [hc]
        · right
          exact ⟨data, by simp [hs, hr], by omega⟩
      · simp [hr]
    · simp [hs]

theorem load_from_partition_flag (w : World) (g : Option tegrabl_fm_handle)
    (h : tegrabl_fm_handle) (pn : Option String) (buf : Option (List Nat)) (size : Option Nat)
    (flag : Option Bool) (st : fm_locals) :
    (load_from_partition w g h pn buf size flag st).is_file_loaded_from_fs = flag := by
  unfold load_from_partition
  split <;> rfl

/-- C7 fails as stated: with a primary image of 2 bytes and two agreeing copies of 1
byte the call completes on the filesystem path with the capacity output 1, the size of
copy2, while the first stat of the primary image gave 2. -/
theorem fm_read_reports_copy2_size :
    fs_stat_file world_backups_agree (some "/sd/boot/Image") = some 2 ∧
    tegrabl_fm_read world_backups_agree none (some sd_handle) (some "/boot/Image")
        (some "kernel") (some [0, 0, 0, 0]) (some 4) (some false) =
      .ok { err := TEGRABL_NO_ERROR, load_address := some [3, 2, 0, 0], size := some 1,
            is_file_loaded_from_fs := some true, fm_handle := some sd_handle,
            path := some "/sd/boot/copy2",
            trace := [.fs_open "/sd/boot/Image" true, .fs_open "/sd/boot/copy1" true,
              .fs_open "/sd/boot/copy2" true, .fs_close "/sd/boot/copy2"] } := by
  decide

/-- C7 as amended: a call of `tegrabl_fm_read` on `/boot/Image` that completes on the
filesystem path (`loaded_from_filesystem` true on return) has loaded the primary image,
copy1 and copy2, returns no error, leaves the process-wide handle equal to the given
handle, and its capacity output is the size of the last stat made: the size of the
primary image in the primary-intact branch, where the primary is loaded again, and the
size of copy2 in the backups-agree and the bit-level repair branches. And the call does
complete on the filesystem path whenever the three files load and copy2 has at most
1,000,000 bytes. -/
theorem fm_read_reported_size (w : World) (g : Option tegrabl_fm_handle)
    (h : tegrabl_fm_handle) (mp : String) (pn : Option String) (buf : List Nat) (cap : Nat)
    (flag : Bool) (hmp : h.mount_path = some mp) :
    (∀ r, tegrabl_fm_read w g (some h) (some "/boot/Image") pn (some buf) (some cap)
        (some flag) = .ok r → r.is_file_loaded_from_fs = some true →
      ∃ primary copy1 copy2, loads_ok w (mp ++ "/boot/Image") cap primary ∧
        loads_ok w (mp ++ IMAGE_COPY1_PATH) cap copy1 ∧
        loads_ok w (mp ++ IMAGE_COPY2_PATH) cap copy2 ∧
        r.size = some (if tegrabl_utils_crc32 0 primary = tegrabl_utils_crc32 0 copy1 ∨
            tegrabl_utils_crc32 0 primary = tegrabl_utils_crc32 0 copy2
          then primary.length else copy2.length) ∧
        r.fm_handle = some h ∧ r.err = TEGRABL_NO_ERROR) ∧
    (∀ primary copy1 copy2, mp.utf8ByteSize + "/boot/Image".utf8ByteSize < 200 →
      loads_ok w (mp ++ "/boot/Image") cap primary →
      loads_ok w (mp ++ IMAGE_COPY1_PATH) cap copy1 →
      loads_ok w (mp ++ IMAGE_COPY2_PATH) cap copy2 →
      copy2.length ≤ 1000000 →
      ∃ r, tegrabl_fm_read w g (some h) (some "/boot/Image") pn (some buf) (some cap)
        (some flag) = .ok r ∧ r.is_file_loaded_from_fs = some true) := by
  constructor
  · intro r hr hflag
    by_cases hlen : mp.utf8ByteSize + "/boot/Image".utf8ByteSize < 200
    · have hlen' : ¬ (200 ≤ mp.utf8ByteSize + "/boot/Image".utf8ByteSize) := Nat.not_le.mpr hlen
      rcases load_fails_or_ok w (mp ++ "/boot/Image") cap with hf | ⟨primary, h1⟩
      · obtain ⟨st', e, -⟩ := fs_load_fails w (mp ++ "/boot/Image") cap buf
          { err := TEGRABL_NO_ERROR, path := none, fh := none, trace := [] } hf
        simp [tegrabl_fm_read, hmp, hlen', e] at hr
        subst hr
        simp [load_from_partition_flag] at hflag
      · rcases load_fails_or_ok w (mp ++ IMAGE_COPY1_PATH) cap with hf | ⟨copy1, h2⟩
        · obtain ⟨st', e, -⟩ := fs_load_fails w (mp ++ IMAGE_COPY1_PATH) cap
            (mem_write buf primary)
            { err := TEGRABL_NO_ERROR, path := some (mp ++ "/boot/Image"),
              fh := some (mp ++ "/boot/Image"),
              trace := [.fs_open (mp ++ "/boot/Image") true] } hf
          simp [tegrabl_fm_read, hmp, hlen', fs_load_ok _ _ _ _ _ _ h1, verify_image, e] at hr
          subst hr
          simp [load_from_partition_flag] at hflag
        · rcases load_fails_or_ok w (mp ++ IMAGE_COPY2_PATH) cap with hf | ⟨copy2, h3⟩
          · obtain ⟨st', e, -⟩ := fs_load_fails w (mp ++ IMAGE_COPY2_PATH) cap
              (mem_write (mem_write buf primary) copy1)
              { err := TEGRABL_NO_ERROR, path := some (mp ++ IMAGE_COPY1_PATH),
                fh := some (mp ++ IMAGE_COPY1_PATH),
                trace := [.fs_open (mp ++ "/boot/Image") true,
                  .fs_open (mp ++ IMAGE_COPY1_PATH) true] } hf
            simp [tegrabl_fm_read, hmp, hlen', fs_load_ok _ _ _ _ _ _ h1, verify_image,
              fs_load_ok _ _ _ _ _ _ h2, e] at hr
            subst hr
            simp [load_from_partition_flag] at hflag
          · refine ⟨primary, copy1, copy2, h1, h2, h3, ?_⟩
            by_cases hcrc : tegrabl_utils_crc32 0 primary = tegrabl_utils_crc32 0 copy1 ∨
                tegrabl_utils_crc32 0 primary = tegrabl_utils_crc32 0 copy2
            · rw [fm_read_branch_intact w g h mp pn buf cap flag primary copy1 copy2 hmp hlen
                h1 h2 h3 hcrc] at hr
              injection hr with hr
              subst hr
              simp [hcrc, fm_loaded, fm_exit]
            · have hab : tegrabl_utils_crc32 0 primary ≠ tegrabl_utils_crc32 0 copy1 :=
                fun e => hcrc (Or.inl e)
              have hac : tegrabl_utils_crc32 0 primary ≠ tegrabl_utils_crc32 0 copy2 :=
                fun e => hcrc (Or.inr e)
              by_cases hbc : tegrabl_utils_crc32 0 copy1 = tegrabl_utils_crc32 0 copy2
              · rw [fm_read_branch_backups w g h mp pn buf cap flag primary copy1 copy2 hmp hlen
                  h1 h2 h3 hac hbc] at hr
                injection hr with hr
                subst hr
                simp [hcrc, fm_loaded, fm_exit]
              · rw [fm_read_branch_repair w g h mp pn buf cap flag primary copy1 copy2 hmp hlen
                  h1 h2 h3 hab hac hbc] at hr
                split at hr
                · exact absurd hr (by simp)
                · next st' dest' e =>
                  injection hr with hr
                  subst hr
                  have he := bit_repair_err _ _ _ _ _ _ _ _ _ e
                  simp only [] at he
                  simp [hcrc, fm_loaded, fm_exit, he]
    · have hlen' : 200 ≤ mp.utf8ByteSize + "/boot/Image".utf8ByteSize := Nat.not_lt.mp hlen
      simp [tegrabl_fm_read, hmp, hlen'] at hr
      subst hr
      simp [load_from_partition_flag] at hflag
  · intro primary copy1 copy2 hlen h1 h2 h3 hsz
    by_cases hcrc : tegrabl_utils_crc32 0 primary = tegrabl_utils_crc32 0 copy1 ∨
        tegrabl_utils_crc32 0 primary = tegrabl_utils_crc32 0 copy2
    · exact ⟨_, fm_read_branch_intact w g h mp pn buf cap flag primary copy1 copy2 hmp hlen
        h1 h2 h3 hcrc, rfl⟩
    · have hab : tegrabl_utils_crc32 0 primary ≠ tegrabl_utils_crc32 0 copy1 :=
        fun e => hcrc (Or.inl e)
      have hac : tegrabl_utils_crc32 0 primary ≠ tegrabl_utils_crc32 0 copy2 :=
        fun e => hcrc (Or.inr e)
      by_cases hbc : tegrabl_utils_crc32 0 copy1 = tegrabl_utils_crc32 0 copy2
      · exact ⟨_, fm_read_branch_backups w g h mp pn buf cap flag primary copy1 copy2 hmp hlen
          h1 h2 h3 hac hbc, rfl⟩
      · rw [fm_read_branch_repair w g h mp pn buf cap flag primary copy1 copy2 hmp hlen
          h1 h2 h3 hab hac hbc]
        rcases bit_repair_cases w 2000000 1000000 mp "/boot/Image" copy2.length (by norm_num)
            { err := TEGRABL_NO_ERROR, path := some (mp ++ IMAGE_COPY2_PATH),
              fh := some (mp ++ IMAGE_COPY2_PATH),
              trace := [.fs_open (mp ++ "/boot/Image") true,
                .fs_open (mp ++ IMAGE_COPY1_PATH) true,
                .fs_open (mp ++ IMAGE_COPY2_PATH) true] }
            (mem_write (mem_write (mem_write buf primary) copy1) copy2) with ⟨r, e⟩ | ⟨-, hb⟩
        · rw [e]
          exact ⟨_, rfl, rfl⟩
        · omega

/-- The amended statement C7 in the world whose copies agree and are shorter than the
primary image. -/
theorem fm_read_reported_size_witness :
    (∃ primary copy1 copy2, loads_ok world_backups_agree ("/sd" ++ "/boot/Image") 4 primary ∧
        loads_ok world_backups_agree ("/sd" ++ IMAGE_COPY1_PATH) 4 copy1 ∧
        loads_ok world_backups_agree ("/sd" ++ IMAGE_COPY2_PATH) 4 copy2 ∧
        some 1 = some (if tegrabl_utils_crc32 0 primary = tegrabl_utils_crc32 0 copy1 ∨
            tegrabl_utils_crc32 0 primary = tegrabl_utils_crc32 0 copy2
          then primary.length else copy2.length)) ∧
    (∃ r, tegrabl_fm_read world_backups_agree none (some sd_handle) (some "/boot/Image")
        (some "kernel") (some [0, 0, 0, 0]) (some 4) (some false) = .ok r ∧
      r.is_file_loaded_from_fs = some true) := by
  constructor
  · obtain ⟨p, c1, c2, h1, h2, h3, hs, -⟩ :=
      (fm_read_reported_size world_backups_agree none sd_handle "/sd" (some "kernel")
        [0, 0, 0, 0] 4 false (by decide)).1
        { err := TEGRABL_NO_ERROR, load_address := some [3, 2, 0, 0], size := some 1,
          is_file_loaded_from_fs := some true, fm_handle := some sd_handle,
          path := some "/sd/boot/copy2",
          trace := [.fs_open "/sd/boot/Image" true, .fs_open "/sd/boot/copy1" true,
            .fs_open "/sd/boot/copy2" true, .fs_close "/sd/boot/copy2"] }
        (by decide) (by decide)
    exact ⟨p, c1, c2, h1, h2, h3, hs⟩
  · exact (fm_read_reported_size world_backups_agree none sd_handle "/sd" (some "kernel")
      [0, 0, 0, 0] 4 false (by decide)).2 [1, 2] [3] [3] (by decide) (by decide) (by decide)
      (by decide) (by decide)

/-! ## Properties of ` get_prefix`, `tegrabl_fm_publish` and `tegrabl_fm_close` -/

/-- On a 32-bit identifier the bit field 16..31 is the quotient by `2 ^ 16`. -/
theorem bitfield_get_high (d : Nat) (hd : d < 2 ^ 32) : BITFIELD_GET d 16 16 = d / 2 ^ 16 := by
  unfold BITFIELD_GET
  rw [Nat.and_pow_two_sub_one_eq_mod, Nat.shiftRight_eq_div_pow]
  apply Nat.mod_eq_of_lt
  omega

/-- C11: for every 32-bit `device_id`, ` get_prefix` returns `/usb`, `/sd`, `/sdmmc_user`
or `/sdmmc_boot` when the storage category in the bits 16-31 is USB mass storage, SD
card, SDMMC user or SDMMC boot, and absent for every other category; and two 32-bit
identifiers with the same bits 16-31 resolve to the same result. -/
theorem get_prefix_by_category (k : storage_types) (d : Nat) (hd : d < 2 ^ 32) :
    (d / 2 ^ 16 = k.TEGRABL_STORAGE_USB_MS → get_prefix k d = some "/usb") ∧
    (d / 2 ^ 16 = k.TEGRABL_STORAGE_SDCARD → get_prefix k d = some "/sd") ∧
    (d / 2 ^ 16 = k.TEGRABL_STORAGE_SDMMC_USER → get_prefix k d = some "/sdmmc_user") ∧
    (d / 2 ^ 16 = k.TEGRABL_STORAGE_SDMMC_BOOT → get_prefix k d = some "/sdmmc_boot") ∧
    (d / 2 ^ 16 ≠ k.TEGRABL_STORAGE_USB_MS → d / 2 ^ 16 ≠ k.TEGRABL_STORAGE_SDCARD →
      d / 2 ^ 16 ≠ k.TEGRABL_STORAGE_SDMMC_USER → d / 2 ^ 16 ≠ k.TEGRABL_STORAGE_SDMMC_BOOT →
      get_prefix k d = none) ∧
    (∀ d', d' < 2 ^ 32 → d' / 2 ^ 16 = d / 2 ^ 16 → get_prefix k d' = get_prefix k d) := by
  have hk := k.distinct
  simp only [List.nodup_cons, List.mem_cons, List.mem_singleton, not_or, List.not_mem_nil,
    not_false_eq_true, List.nodup_nil, and_true] at hk
  obtain ⟨⟨h12, h13, h14⟩, ⟨h23, h24⟩, h34⟩ := hk
  unfold get_prefix
  rw [bitfield_get_high d hd]
  refine ⟨?_, ?_, ?_, ?_, ?_, ?_⟩
  · intro h
    rw [h, if_pos rfl]
  · intro h
    rw [h, if_neg (Ne.symm h12), if_pos rfl]
  · intro h
    rw [h, if_neg (Ne.symm h13), if_neg (Ne.symm h23), if_pos rfl]
  · intro h
    rw [h, if_neg (Ne.symm h14), if_neg (Ne.symm h24), if_neg (Ne.symm h34), if_pos rfl]
  · intro a b c e
    rw [if_neg a, if_neg b, if_neg c, if_neg e]
  · intro d' hd' e
    rw [bitfield_get_high d' hd', e]

/-- The statement C11 at the identifier 0x60002 (category 6, the SD card of the sample
enumerators), against the identifier 0x6ffff. -/
theorem get_prefix_by_category_witness :
    get_prefix sample_storage_types 0x60002 = some "/sd" ∧
    get_prefix sample_storage_types 0x6ffff = get_prefix sample_storage_types 0x60002 :=
  ⟨(get_prefix_by_category sample_storage_types 0x60002 (by decide)).2.1 (by decide),
   (get_prefix_by_category sample_storage_types 0x60002 (by decide)).2.2.2.2.2 0x6ffff
      (by decide) (by decide)⟩

/-- C12: with `CONFIG_ENABLE_EXTLINUX_BOOT`, on a device for which the allocation of the
handle succeeds, the partition table publishes, the boot-GUID lookup returns a
partition with start sector `s` (a 32-bit value), a filesystem type `f` is detected at
sector `s`, the device category has the mount prefix `pfx` and the mount of
`(pfx, f, device, s)` returns status 0: `tegrabl_fm_publish` returns no error, and the
handle written to the output parameter and to the process-wide handle has that device,
filesystem type `f`, start sector `s` and mount prefix `pfx`. -/
theorem fm_publish_boot_partition (pw : PublishWorld) (bdev : tegrabl_bdev_t)
    (out : Option tegrabl_fm_handle) (p : tegrabl_partition) (f pfx : String)
    (hm : pw.malloc_ok = true)
    (hp : pw.tegrabl_partition_publish bdev = TEGRABL_NO_ERROR)
    (hl : pw.boot_guid_lookup bdev = .ok p) (hs : p.start_sector < 2 ^ 32)
    (hf : pw.fs_detect bdev p.start_sector = some f)
    (hx : get_prefix pw.types bdev.device_id = some pfx)
    (hmnt : pw.fs_mount pfx f bdev p.start_sector = 0) :
    (tegrabl_fm_publish true pw bdev (some out)).err = TEGRABL_NO_ERROR ∧
    (tegrabl_fm_publish true pw bdev (some out)).handle =
      some (some { bdev := some bdev, fs_type := some f, start_sector := p.start_sector,
                   mount_path := some pfx }) ∧
    (tegrabl_fm_publish true pw bdev (some out)).fm_handle =
      some { bdev := some bdev, fs_type := some f, start_sector := p.start_sector,
             mount_path := some pfx } ∧
    pfx ∈ get_prefix pw.types bdev.device_id := by
  have hmod : p.start_sector % 4294967296 = p.start_sector := Nat.mod_eq_of_lt hs
  simp [tegrabl_fm_publish, hm, hp, hl, detect_fs, hmod, hf, hx, hmnt, publish_exit]

/-- The statement C12 on an SD card whose boot partition starts at sector 2048. -/
theorem fm_publish_boot_partition_witness :
    (tegrabl_fm_publish true publish_world_gpt sd_bdev (some none)).err = TEGRABL_NO_ERROR ∧
    (tegrabl_fm_publish true publish_world_gpt sd_bdev (some none)).handle =
      some (some { bdev := some sd_bdev, fs_type := some "ext4", start_sector := 2048,
                   mount_path := some "/sd" }) :=
  ⟨(fm_publish_boot_partition publish_world_gpt sd_bdev none
      { start_sector := 2048, size := 4096, data := [], read_err := none } "ext4" "/sd"
      (by decide) (by decide) (by decide) (by decide) (by decide) (by decide) (by decide)).1,
   (fm_publish_boot_partition publish_world_gpt sd_bdev none
      { start_sector := 2048, size := 4096, data := [], read_err := none } "ext4" "/sd"
      (by decide) (by decide) (by decide) (by decide) (by decide) (by decide) (by decide)).2.1⟩

/-- C13: with `CONFIG_ENABLE_EXTLINUX_BOOT`, on every device whose partition-table
publish fails, `tegrabl_fm_publish` makes no boot-partition lookup, whatever the other
collaborators do; once the handle is allocated, the call after the publish is the probe
for a filesystem at sector 0, and no probe and no mount is made at another sector; and
when a filesystem is detected at sector 0, the device category has a mount prefix and
the mount returns 0, it is mounted at sector 0, and the resulting handle (process-wide
and in the output parameter) has start sector 0 and that filesystem type and mount
prefix. -/
theorem fm_publish_sector_zero (pw : PublishWorld) (bdev : tegrabl_bdev_t)
    (out : Option tegrabl_fm_handle)
    (hp : pw.tegrabl_partition_publish bdev ≠ TEGRABL_NO_ERROR) :
    publish_event.boot_guid_lookup ∉ (tegrabl_fm_publish true pw bdev (some out)).trace ∧
    (∀ s, publish_event.fs_detect s ∈ (tegrabl_fm_publish true pw bdev (some out)).trace →
      s = 0) ∧
    (∀ p f s, publish_event.fs_mount p f s ∈
      (tegrabl_fm_publish true pw bdev (some out)).trace → s = 0) ∧
    (pw.malloc_ok = true →
      (tegrabl_fm_publish true pw bdev (some out)).trace.take 2 =
        [.partition_publish, .fs_detect 0]) ∧
    (∀ f pfx, pw.malloc_ok = true → pw.fs_detect bdev 0 = some f →
      get_prefix pw.types bdev.device_id = some pfx → pw.fs_mount pfx f bdev 0 = 0 →
      (tegrabl_fm_publish true pw bdev (some out)).trace =
        [.partition_publish, .fs_detect 0, .fs_mount pfx f 0] ∧
      (tegrabl_fm_publish true pw bdev (some out)).fm_handle =
        some { bdev := some bdev, fs_type := some f, start_sector := 0,
               mount_path := some pfx } ∧
      (tegrabl_fm_publish true pw bdev (some out)).handle =
        some (some { bdev := some bdev, fs_type := some f, start_sector := 0,
                     mount_path := some pfx })) := by
  refine ⟨?_, ?_, ?_, ?_, ?_⟩
  · cases hm : pw.malloc_ok
    · simp [tegrabl_fm_publish, hm, publish_exit]
    · cases hf : pw.fs_detect bdev 0 with
      | none => simp [tegrabl_fm_publish, hm, hp, detect_fs, hf, publish_exit]
      | some f =>
        cases hx : get_prefix pw.types bdev.device_id with
        | none => simp [tegrabl_fm_publish, hm, hp, detect_fs, hf, hx, publish_exit]
        | some pfx =>
          by_cases hmnt : pw.fs_mount pfx f bdev 0 = 0
          · simp [tegrabl_fm_publish, hm, hp, detect_fs, hf, hx, hmnt, publish_exit]
          · simp [tegrabl_fm_publish, hm, hp, detect_fs, hf, hx, hmnt, publish_exit]
  · intro s
    cases hm : pw.malloc_ok
    · simp [tegrabl_fm_publish, hm, publish_exit]
    · cases hf : pw.fs_detect bdev 0 with
      | none =>
        simp [tegrabl_fm_publish, hm, hp, detect_fs, hf, publish_exit]
      | some f =>
        cases hx : get_prefix pw.types bdev.device_id with
        | none =>
          simp [tegrabl_fm_publish, hm, hp, detect_fs, hf, hx, publish_exit]
        | some pfx =>
          by_cases hmnt : pw.fs_mount pfx f bdev 0 = 0
          · simp [tegrabl_fm_publish, hm, hp, detect_fs, hf, hx, hmnt, publish_exit]
          · simp [tegrabl_fm_publish, hm, hp, detect_fs, hf, hx, hmnt, publish_exit]
  · intro p f' s
    cases hm : pw.malloc_ok
    · simp [tegrabl_fm_publish, hm, publish_exit]
    · cases hf : pw.fs_detect bdev 0 with
      | none => simp [tegrabl_fm_publish, hm, hp, detect_fs, hf, publish_exit]
      | some f =>
        cases hx : get_prefix pw.types bdev.device_id with
        | none => simp [tegrabl_fm_publish, hm, hp, detect_fs, hf, hx, publish_exit]
        | some pfx =>
          by_cases hmnt : pw.fs_mount pfx f bdev 0 = 0
          · simp [tegrabl_fm_publish, hm, hp, detect_fs, hf, hx, hmnt, publish_exit]
          · simp [tegrabl_fm_publish, hm, hp, detect_fs, hf, hx, hmnt, publish_exit]
  · intro hm
    cases hf : pw.fs_detect bdev 0 with
    | none => simp [tegrabl_fm_publish, hm, hp, detect_fs, hf, publish_exit]
    | some f =>
      cases hx : get_prefix pw.types bdev.device_id with
      | none => simp [tegrabl_fm_publish, hm, hp, detect_fs, hf, hx, publish_exit]
      | some pfx =>
        by_cases hmnt : pw.fs_mount pfx f bdev 0 = 0
        · simp [tegrabl_fm_publish, hm, hp, detect_fs, hf, hx, hmnt, publish_exit]
        · simp [tegrabl_fm_publish, hm, hp, detect_fs, hf, hx, hmnt, publish_exit]
  · intro f pfx hm hf hx hmnt
    simp [tegrabl_fm_publish, hm, hp, detect_fs, hf, hx, hmnt, publish_exit]

/-- The statement C13 on an SD card without a partition table and with a FAT filesystem
at sector 0. -/
theorem fm_publish_sector_zero_witness :
    publish_event.boot_guid_lookup ∉
      (tegrabl_fm_publish true publish_world_raw sd_bdev (some none)).trace ∧
    (tegrabl_fm_publish true publish_world_raw sd_bdev (some none)).trace =
      [.partition_publish, .fs_detect 0, .fs_mount "/sd" "fat" 0] ∧
    (tegrabl_fm_publish true publish_world_raw sd_bdev (some none)).fm_handle =
      some { bdev := some sd_bdev, fs_type := some "fat", start_sector := 0,
             mount_path := some "/sd" } :=
  ⟨(fm_publish_sector_zero publish_world_raw sd_bdev none (by decide)).1,
   ((fm_publish_sector_zero publish_world_raw sd_bdev none (by decide)).2.2.2.2 "fat" "/sd"
      (by decide) (by decide) (by decide) (by decide)).1,
   ((fm_publish_sector_zero publish_world_raw sd_bdev none (by decide)).2.2.2.2 "fat" "/sd"
      (by decide) (by decide) (by decide) (by decide)).2.1⟩

/-- C14 (the code departs from it): on an SD card without a partition table and with a
FAT filesystem at sector 0, `tegrabl_fm_publish` detects and mounts the filesystem and
records the mount prefix `/sd` in the handle, and yet returns the error of the failed
partition-table publish: `err` is not cleared on the jump to `detect_fs`. -/
theorem fm_publish_sector_zero_returns_error :
    tegrabl_fm_publish true publish_world_raw sd_bdev (some none) =
      { err := some ⟨.other 9, .TEGRABL_ERR_NOT_FOUND, 0⟩,
        fm_handle := some { bdev := some sd_bdev, fs_type := some "fat", start_sector := 0,
                            mount_path := some "/sd" },
        handle := some (some { bdev := some sd_bdev, fs_type := some "fat", start_sector := 0,
                               mount_path := some "/sd" }),
        trace := [.partition_publish, .fs_detect 0, .fs_mount "/sd" "fat" 0] } ∧
    publish_world_raw.tegrabl_partition_publish sd_bdev =
      some ⟨.other 9, .TEGRABL_ERR_NOT_FOUND, 0⟩ := by
  decide

/-- C15: `tegrabl_fm_close` on an absent handle changes nothing: no unmount, no release,
the process-wide handle as it was. On a present handle it unmounts the handle's mount
prefix exactly when that prefix is present, then releases the handle, and leaves the
process-wide handle absent, so that `tegrabl_file_manager_get_handle` returns absent. -/
theorem fm_close_lifecycle (g : Option tegrabl_fm_handle) :
    tegrabl_fm_close g none = { fm_handle := g, trace := [] } ∧
    ∀ h : tegrabl_fm_handle,
      (tegrabl_fm_close g (some h)).fm_handle = none ∧
      tegrabl_file_manager_get_handle (tegrabl_fm_close g (some h)).fm_handle = none ∧
      (∀ p, h.mount_path = some p →
        (tegrabl_fm_close g (some h)).trace = [.fs_unmount p, .tegrabl_free h]) ∧
      (h.mount_path = none → (tegrabl_fm_close g (some h)).trace = [.tegrabl_free h]) ∧
      (∀ p, close_event.fs_unmount p ∈ (tegrabl_fm_close g (some h)).trace ↔
        h.mount_path = some p) := by
  refine ⟨rfl, fun h => ⟨rfl, rfl, ?_, ?_, ?_⟩⟩
  · intro p hp
    simp [tegrabl_fm_close, hp]
  · intro hp
    simp [tegrabl_fm_close, hp]
  · intro p
    cases hp : h.mount_path <;> simp [tegrabl_fm_close, hp, eq_comm]

/-- The statement C15 on the handle of a filesystem mounted at `/sd`. -/
theorem fm_close_lifecycle_witness :
    (tegrabl_fm_close (some sd_handle) (some sd_handle)).trace =
      [.fs_unmount "/sd", .tegrabl_free sd_handle] :=
  ((fm_close_lifecycle (some sd_handle)).2 sd_handle).2.2.1 "/sd" (by decide)

/-! ## Further properties of `tegrabl_fm_read` -/

/-- C16 (the code departs from it): on a handle without a mount prefix and without a
fallback partition name the call returns `TEGRABL_NO_ERROR` although the partition
reader was not invoked and nothing was read: the jump of line 264 to
`load_from_partition` sets no error, unlike every other jump to that label, and lines
600-602 return `err` as it is. -/
theorem fm_read_no_source_succeeds :
    tegrabl_fm_read world_partition_only none (some bare_handle) (some "/boot/Image") none
        (some [0, 0, 0, 0]) (some 4) (some false) =
      .ok { err := TEGRABL_NO_ERROR, load_address := some [0, 0, 0, 0], size := some 4,
            is_file_loaded_from_fs := some false, fm_handle := none, path := none,
            trace := [] } := by
  decide

/-- What `tegrabl_fm_read` does on a present handle whose mount prefix is absent: it goes
to `load_from_partition` at once; without a fallback partition name it returns
`TEGRABL_NO_ERROR` with no collaborator called and nothing read, with one it returns
the error of the partition reader. -/
theorem fm_read_without_mount (w : World) (g : Option tegrabl_fm_handle)
    (h : tegrabl_fm_handle) (fp pn : Option String) (load_address : Option (List Nat))
    (size : Option Nat) (flag : Option Bool) (hmp : h.mount_path = none) :
    ∃ r, tegrabl_fm_read w g (some h) fp pn load_address size flag = .ok r ∧
      (pn = none → r.err = TEGRABL_NO_ERROR ∧ r.trace = [] ∧ r.load_address = load_address ∧
        r.size = size ∧ r.is_file_loaded_from_fs = flag.map (fun _ => false)) ∧
      (∀ name, pn = some name → Event.read_partition_call ∈ r.trace ∧
        r.err = (tegrabl_fm_read_partition w h.bdev (some name) load_address size).err) ∧
      (r.err = TEGRABL_NO_ERROR ↔ pn = none ∨ ∃ name, pn = some name ∧
        (tegrabl_fm_read_partition w h.bdev (some name) load_address size).err
          = TEGRABL_NO_ERROR) := by
  have e : tegrabl_fm_read w g (some h) fp pn load_address size flag =
      .ok (load_from_partition w g h pn load_address size (flag.map (fun _ => false))
        { err := TEGRABL_NO_ERROR, path := none, fh := none, trace := [] }) := by
    cases fp <;> simp [tegrabl_fm_read, hmp]
  refine ⟨_, e, ?_, ?_, ?_⟩
  · intro hpn
    subst hpn
    simp [load_from_partition, fm_exit]
  · intro name hpn
    subst hpn
    simp [load_from_partition, fm_exit]
  · cases pn with
    | none => simp [load_from_partition, fm_exit]
    | some name => simp [load_from_partition, fm_exit]

/-- C17 (the code departs from it): in a call on `/boot/Image` with the primary image
and both copies present, four files are opened (the primary twice) and only the
handle held last in `fh` is closed at `fail:`; the handles of the first open of the
primary, of copy1 and of copy2 are left open on return. -/
theorem fm_read_leaks_handles :
    (tegrabl_fm_read world_intact none (some sd_handle) (some "/boot/Image") (some "kernel")
        (some [0, 0, 0, 0]) (some 4) (some false)).toOption.map (fun r => r.trace) =
      some [.fs_open "/sd/boot/Image" true, .fs_open "/sd/boot/copy1" true,
        .fs_open "/sd/boot/copy2" true, .fs_open "/sd/boot/Image" true,
        .fs_close "/sd/boot/Image"] ∧
    (tegrabl_fm_read world_intact none (some sd_handle) (some "/boot/Image") (some "kernel")
        (some [0, 0, 0, 0]) (some 4) (some false)).toOption.map
          (fun r => open_handles r.trace) =
      some ["/sd/boot/copy1", "/sd/boot/copy2", "/sd/boot/Image"] := by
  decide

/-! ### The exits of `tegrabl_fm_read` -/

theorem fs_load_on_fs_path (w : World) (path : String) (la : Option (List Nat))
    (size : Option Nat) (st st' : fm_locals) (buf : List Nat) (n : Nat)
    (h : fs_load w path la size st = .loaded st' buf n) (hc : on_fs_path st) :
    on_fs_path st' := by
  obtain ⟨he, ht⟩ := hc
  unfold fs_load at h
  dsimp only at h
  split at h
  · simp at h
  · split at h
    · simp at h
    · split at h
      · simp at h
      · split at h
        · simp at h
        · split at h
          · simp at h
          · split at h
            · simp at h
            · injection h with h1 h2 h3
              subst h1
              exact ⟨he, by simpa using ht⟩

theorem fs_reload_on_fs_path (w : World) (path : String) (n : Nat) (st : fm_locals)
    (buf : List Nat) (hc : on_fs_path st) : on_fs_path (fs_reload w path n st buf).1 := by
  obtain ⟨he, ht⟩ := hc
  unfold fs_reload
  dsimp only
  split
  · exact ⟨he, by simpa using ht⟩
  · exact ⟨he, by simpa using ht⟩

theorem scan_windows_on_fs_path (w : World) (W cap : Nat) (mp fp : String) (n : Nat)
    (fuel start : Nat) (st : fm_locals) (buf : List Nat) (corr : List (Nat × Nat))
    (r : fm_locals × List Nat × List (Nat × Nat))
    (h : scan_windows w W cap mp fp n fuel start st buf corr = .ok r) (hc : on_fs_path st) :
    on_fs_path r.1 := by
  induction fuel generalizing start st buf corr with
  | zero =>
    unfold scan_windows at h
    split at h
    · simp at h
    · injection h with h
      subst h
      exact hc
  | succ k ih =>
    unfold scan_windows at h
    split at h
    · dsimp only at h
      split at h
      · simp at h
      · exact ih _ _ _ _ h
          (fs_reload_on_fs_path _ _ _ _ _
            (fs_reload_on_fs_path _ _ _ _ _ (fs_reload_on_fs_path _ _ _ _ _ hc)))
    · injection h with h
      subst h
      exact hc

theorem bit_repair_on_fs_path (w : World) (W cap : Nat) (mp fp : String) (n : Nat)
    (st : fm_locals) (buf : List Nat) (r : fm_locals × List Nat)
    (h : bit_repair w W cap mp fp n st buf = .ok r) (hc : on_fs_path st) : on_fs_path r.1 := by
  unfold bit_repair at h
  split at h
  · simp at h
  · next st' buf' corr e =>
    injection h with h
    subst h
    exact scan_windows_on_fs_path w W cap mp fp n n 0 st buf [] _ e hc

/-- Every return of the special case is through `load_from_partition` or through the
stores of lines 589-597 with locals that stayed on the filesystem path. -/
theorem verify_image_exits (w : World) (g : Option tegrabl_fm_handle) (h : tegrabl_fm_handle)
    (mp fp : String) (pn : Option String) (size : Option Nat) (flag : Option Bool)
    (st : fm_locals) (buf : List Nat) (n : Nat) (r : fm_read_result)
    (hc : on_fs_path st)
    (hr : verify_image w g h mp fp pn size flag st buf n = .ok r) :
    (∃ st' buf', r = load_from_partition w g h pn buf' size flag st') ∨
    (∃ st' buf' n', r = fm_loaded h flag st' buf' n' ∧ on_fs_path st') := by
  unfold verify_image at hr
  dsimp only at hr
  split at hr
  · simp at hr
  · injection hr with hr
    exact Or.inl ⟨_, _, hr.symm⟩
  · next st1 buf1 n1 e1 =>
    have c1 := fs_load_on_fs_path _ _ _ _ _ _ _ _ e1 hc
    split at hr
    · simp at hr
    · injection hr with hr
      exact Or.inl ⟨_, _, hr.symm⟩
    · next st2 buf2 n2 e2 =>
      have c2 := fs_load_on_fs_path _ _ _ _ _ _ _ _ e2 c1
      split at hr
      · split at hr
        · simp at hr
        · injection hr with hr
          exact Or.inl ⟨_, _, hr.symm⟩
        · next st3 buf3 n3 e3 =>
          injection hr with hr
          exact Or.inr ⟨_, _, _, hr.symm, fs_load_on_fs_path _ _ _ _ _ _ _ _ e3 c2⟩
      · split at hr
        · injection hr with hr
          exact Or.inr ⟨_, _, _, hr.symm, c2⟩
        · split at hr
          · split at hr
            · simp at hr
            · next st3 buf3 e3 =>
              injection hr with hr
              exact Or.inr ⟨_, _, _, hr.symm, bit_repair_on_fs_path _ _ _ _ _ _ _ _ _ e3 c2⟩
          · injection hr with hr
            exact Or.inr ⟨_, _, _, hr.symm, c2⟩

/-- Every return of `tegrabl_fm_read` is through one of three exits: the absent-handle
exit, the label `load_from_partition`, or the stores of lines 589-597 reached with locals
that stayed on the filesystem path. -/
theorem fm_read_exits (w : World) (g handle : Option tegrabl_fm_handle)
    (fp pn : Option String) (la : Option (List Nat)) (size : Option Nat) (flag : Option Bool)
    (r : fm_read_result)
    (hr : tegrabl_fm_read w g handle fp pn la size flag = .ok r) :
    (handle = none ∧ r = fm_exit ⟨TEGRABL_ERROR .TEGRABL_ERR_INVALID 0x3, none, none, []⟩ la size (flag.map (fun _ => false)) g) ∨
    (∃ h st buf, handle = some h ∧
      r = load_from_partition w g h pn buf size (flag.map (fun _ => false)) st) ∨
    (∃ h st buf n, handle = some h ∧ r = fm_loaded h (flag.map (fun _ => false)) st buf n ∧
      on_fs_path st) := by
  have c0 : on_fs_path { err := TEGRABL_NO_ERROR, path := none, fh := none, trace := [] } :=
    ⟨rfl, by simp⟩
  unfold tegrabl_fm_read at hr
  dsimp only at hr
  split at hr
  · injection hr with hr
    exact Or.inl ⟨rfl, hr.symm⟩
  · next h =>
    split at hr
    · next fp' mp hfp hmp =>
      split at hr
      · injection hr with hr
        exact Or.inr (Or.inl ⟨h, _, _, rfl, hr.symm⟩)
      · split at hr
        · simp at hr
        · injection hr with hr
          exact Or.inr (Or.inl ⟨h, _, _, rfl, hr.symm⟩)
        · next st1 buf1 n1 e1 =>
          have c1 := fs_load_on_fs_path _ _ _ _ _ _ _ _ e1 c0
          split at hr
          · rcases verify_image_exits _ _ _ _ _ _ _ _ _ _ _ _ c1 hr with
              ⟨st', buf', e⟩ | ⟨st', buf', n', e, c⟩
            · exact Or.inr (Or.inl ⟨h, _, _, rfl, e⟩)
            · exact Or.inr (Or.inr ⟨h, _, _, _, rfl, e, c⟩)
          · injection hr with hr
            exact Or.inr (Or.inr ⟨h, _, _, _, rfl, hr.symm, c1⟩)
    · injection hr with hr
      exact Or.inr (Or.inl ⟨h, _, _, rfl, hr.symm⟩)

theorem load_from_partition_handle (w : World) (g : Option tegrabl_fm_handle)
    (h : tegrabl_fm_handle) (pn : Option String) (buf : Option (List Nat)) (size : Option Nat)
    (flag : Option Bool) (st : fm_locals) :
    (load_from_partition w g h pn buf size flag st).fm_handle = g := by
  unfold load_from_partition
  split <;> rfl

/-- C20: for every call of `tegrabl_fm_read` that returns (handle present or absent, any
path, any collaborator outcomes): if `loaded_from_filesystem` is true on return then the
returned error is `TEGRABL_NO_ERROR`, the partition reader was not invoked and the
process-wide handle is the given handle; when the handle is absent, and when the
return is through the label `load_from_partition`, `loaded_from_filesystem` is false on
return (where the pointer is present) and the process-wide handle is as it was; and
every return is of one of these kinds. -/
theorem fm_read_flag_sound (w : World) (g handle : Option tegrabl_fm_handle)
    (fp pn : Option String) (la : Option (List Nat)) (size : Option Nat) (flag : Option Bool)
    (r : fm_read_result)
    (hr : tegrabl_fm_read w g handle fp pn la size flag = .ok r) :
    (r.is_file_loaded_from_fs = some true →
      r.err = TEGRABL_NO_ERROR ∧ Event.read_partition_call ∉ r.trace ∧
      r.fm_handle = handle ∧ handle ≠ none) ∧
    (handle = none →
      r.is_file_loaded_from_fs = flag.map (fun _ => false) ∧ r.fm_handle = g) ∧
    (∀ h st buf, r = load_from_partition w g h pn buf size (flag.map (fun _ => false)) st →
      r.is_file_loaded_from_fs = flag.map (fun _ => false) ∧ r.fm_handle = g) ∧
    (r.is_file_loaded_from_fs = flag.map (fun _ => true) ∧ r.fm_handle = handle ∨
      r.is_file_loaded_from_fs = flag.map (fun _ => false) ∧ r.fm_handle = g) := by
  have key := fm_read_exits w g handle fp pn la size flag r hr
  refine ⟨?_, ?_, ?_, ?_⟩
  · intro ht
    rcases key with ⟨-, e⟩ | ⟨h, st, buf, -, e⟩ | ⟨h, st, buf, n, hh, e, he, hc⟩
    · subst e
      cases flag <;> simp [fm_exit] at ht
    · subst e
      rw [load_from_partition_flag] at ht
      cases flag <;> simp at ht
    · subst e
      subst hh
      refine ⟨he, ?_, rfl, by simp⟩
      simp only [fm_loaded, fm_exit]
      split <;> simpa using hc
  · intro hn
    rcases key with ⟨-, e⟩ | ⟨h, st, buf, hh, -⟩ | ⟨h, st, buf, n, hh, -⟩
    · subst e
      exact ⟨rfl, rfl⟩
    · rw [hn] at hh
      exact absurd hh (by simp)
    · rw [hn] at hh
      exact absurd hh (by simp)
  · intro h st buf e
    subst e
    exact ⟨load_from_partition_flag _ _ _ _ _ _ _ _, load_from_partition_handle _ _ _ _ _ _ _ _⟩
  · rcases key with ⟨hn, e⟩ | ⟨h, st, buf, -, e⟩ | ⟨h, st, buf, n, hh, e, -⟩
    · subst e
      exact Or.inr ⟨rfl, rfl⟩
    · subst e
      exact Or.inr ⟨load_from_partition_flag _ _ _ _ _ _ _ _,
        load_from_partition_handle _ _ _ _ _ _ _ _⟩
    · subst e
      subst hh
      left
      refine ⟨?_, rfl⟩
      cases flag <;> rfl

/-- The statement C20 at the call on `/boot/Image` in the world whose copy1 equals the
primary image. -/
theorem fm_read_flag_sound_witness :
    intact_result.err = TEGRABL_NO_ERROR ∧
    Event.read_partition_call ∉ intact_result.trace ∧
    intact_result.fm_handle = some sd_handle ∧ some sd_handle ≠ none :=
  (fm_read_flag_sound world_intact none (some sd_handle) (some "/boot/Image") (some "kernel")
    (some [0, 0, 0, 0]) (some 4) (some false) intact_result (by decide)).1 (by decide)

/-! ### The window loop is one pass over the offsets -/

end Cboot
